import Mathlib

/-!
Verification of the Emma emulator-manager extension.

This file shallowly embeds the core logic of the repository:
`src/cli.ts` (command runner and validators), `src/iosEmulator.ts`
(iOS simulator listing parser, device-subtype and version extraction,
boot), `src/androidEmulator.ts` (the Android status-resolution
pipeline) and `src/emulatorProvider.ts` (the reconciling status store:
`loadEmulators`, `checkStatusChanges`, `startEmulator`).

Subprocess results are modelled as explicit `CLICommandResult` values
supplied by "world" structures: every `await executeCommand(...)` in
the source corresponds to reading one field of the world.  JavaScript
regular-expression tests are implemented as executable character-list
matchers with the same semantics on the inputs in question; JS string
operations (`includes`, `split`, `trim`, `toLowerCase`, truthiness of
the empty string) are modelled by the corresponding executable Lean
string functions.  All definitions are computable so that every
theorem can be checked on concrete inputs.
-/

set_option linter.unusedVariables false

namespace Emma

/-- Run state of an emulator: the string union `'running' | 'starting' | 'stopped'`. -/
inductive EmStatus where
  | running
  | starting
  | stopped
deriving DecidableEq, Repr

/-- Result shape returned by `executeCommand` (`CLICommandResult` in `types.ts`).
The `error` field holds the thrown error's message when present. -/
structure CLICommandResult where
  success : Bool
  stdout : String
  stderr : String
  error : Option String := none
deriving DecidableEq, Repr

/-! ### Generic string helpers (JS semantics) -/

/-- `needle` is a prefix of `hay` (character lists). -/
def listPrefix (needle hay : List Char) : Bool :=
  match needle, hay with
  | [], _ => true
  | _ :: _, [] => false
  | n :: ns, h :: hs => n == h && listPrefix ns hs

/-- `hay` contains `needle` as a contiguous substring (JS `String.includes`). -/
def listContainsSub (hay needle : List Char) : Bool :=
  match hay with
  | [] => listPrefix needle []
  | c :: t => listPrefix needle (c :: t) || listContainsSub t needle

/-- JS `hay.includes(needle)`. -/
def strContains (hay needle : String) : Bool :=
  listContainsSub hay.toList needle.toList

/-- The characters matched by the JS `\s` class (ASCII range). -/
def jsWhitespace (c : Char) : Bool :=
  c == ' ' || c == '\t' || c == '\n' || c == '\r' || c == '\x0b' || c == '\x0c'

/-- Strip leading and trailing whitespace (JS `String.trim`, ASCII range). -/
def trimCharList (cs : List Char) : List Char :=
  ((cs.dropWhile jsWhitespace).reverse.dropWhile jsWhitespace).reverse

/-- JS `s.trim()`. -/
def jsTrim (s : String) : String := String.mk (trimCharList s.toList)

/-- JS `s.toLowerCase()` (ASCII range). -/
def jsToLower (s : String) : String := String.mk (s.toList.map Char.toLower)

/-- Split at every character satisfying `p`, keeping empty fragments (the
behaviour of JS `split` with a one-character separator class). -/
def splitOnPred (p : Char → Bool) : List Char → List (List Char)
  | [] => [[]]
  | c :: t =>
    match splitOnPred p t with
    | [] => [[]]
    | h :: r => if p c then [] :: h :: r else (c :: h) :: r

/-- JS `s.split('\n')`. -/
def splitLines (s : String) : List String :=
  (splitOnPred (fun c => c == '\n') s.toList).map String.mk

/-- JS `line.split(/\s+/)` on an already-trimmed line: split on whitespace
runs, dropping empty fragments. -/
def splitWhitespaceRuns (s : String) : List String :=
  ((splitOnPred jsWhitespace s.toList).map String.mk).filter (fun piece => piece ≠ "")

/-- Replace every non-overlapping occurrence of `pat` (non-empty at all call
sites) by `repl`, left to right — JS `s.replace(/pat/g, repl)` for a literal
pattern.  The fuel argument is the input length; one or more characters are
consumed per step, so the fuel never runs out when initialised that way. -/
def replaceAll (pat repl : List Char) : Nat → List Char → List Char
  | 0, cs => cs
  | _ + 1, [] => []
  | fuel + 1, c :: t =>
    if listPrefix pat (c :: t) then
      repl ++ replaceAll pat repl fuel ((c :: t).drop pat.length)
    else c :: replaceAll pat repl fuel t

/-- JS `s.replace(pat-as-global-regex, repl)` for a literal pattern. -/
def strReplace (s pat repl : String) : String :=
  String.mk (replaceAll pat.toList repl.toList s.toList.length s.toList)

/-! ### `src/cli.ts` — the command runner and the validators -/

/-- Abstraction of the subprocess spawned by `executeCommand`: how long the
underlying process takes to settle, and what it produces when it does. -/
structure SubprocessBehavior where
  duration : Nat
  exitCode : Nat
  stdout : String
  stderr : String
deriving DecidableEq, Repr

/-- The `ExecFileOptions` consulted by `executeCommand` (`options.timeout`). -/
structure ExecOptions where
  timeout : Option Nat := none
deriving DecidableEq, Repr

/-- `const DEFAULT_TIMEOUT = 30000`. -/
def DEFAULT_TIMEOUT : Nat := 30000

/-- `const timeout = options.timeout || DEFAULT_TIMEOUT;` — both an absent
value and `0` are falsy in JS, so both select the default. -/
def effectiveTimeout (options : ExecOptions) : Nat :=
  match options.timeout with
  | none => DEFAULT_TIMEOUT
  | some t => if t = 0 then DEFAULT_TIMEOUT else t

/-- `executeCommand` from `src/cli.ts`.  The subprocess promise is raced
against an independent timer of `effectiveTimeout options` milliseconds: if
the process has not settled by the deadline the timer's rejection wins and is
caught, producing a failure result with message `"Command timeout"` and empty
captured output; a nonzero exit settles as a rejection whose error object
carries the captured output, also caught and converted to a failure result.
No code path rethrows, so the function always returns a `CLICommandResult`. -/
def executeCommand (command : String) (args : List String)
    (options : ExecOptions) (proc : SubprocessBehavior) : CLICommandResult :=
  let timeout := effectiveTimeout options
  if timeout ≤ proc.duration then
    { success := false, stdout := "", stderr := "", error := some "Command timeout" }
  else if proc.exitCode = 0 then
    { success := true, stdout := proc.stdout, stderr := proc.stderr, error := none }
  else
    { success := false, stdout := proc.stdout, stderr := proc.stderr,
      error := some ("Command failed with exit code " ++ toString proc.exitCode) }

/-- One character of the class `[0-9A-F]` under the `i` flag. -/
def isHexDigit (c : Char) : Bool :=
  c.isDigit || ('a' ≤ c && c ≤ 'f') || ('A' ≤ c && c ≤ 'F')

/-- Consume exactly `n` hex digits, returning the rest of the input. -/
def chompHex (n : Nat) (cs : List Char) : Option (List Char) :=
  match n, cs with
  | 0, rest => some rest
  | _ + 1, [] => none
  | m + 1, c :: t => if isHexDigit c then chompHex m t else none

/-- Consume a literal `'-'`. -/
def chompDash : List Char → Option (List Char)
  | '-' :: t => some t
  | _ => none

/-- `validateUDID` from `src/cli.ts`:
`/^[0-9A-F]{8}-[0-9A-F]{4}-[0-9A-F]{4}-[0-9A-F]{4}-[0-9A-F]{12}$/i`. -/
def validateUDID (udid : String) : Bool :=
  (do
    let r ← chompHex 8 udid.toList
    let r ← chompDash r
    let r ← chompHex 4 r
    let r ← chompDash r
    let r ← chompHex 4 r
    let r ← chompDash r
    let r ← chompHex 4 r
    let r ← chompDash r
    let r ← chompHex 12 r
    pure r.isEmpty).getD false

/-- One character of the class `[a-zA-Z0-9_-]`. -/
def isAVDNameChar (c : Char) : Bool :=
  c.isAlpha || c.isDigit || c == '_' || c == '-'

/-- `avdNameRegex.test(name)` for `/^[a-zA-Z0-9_-]+$/`: non-empty and every
character in the class. -/
def avdNameRegexTest (name : String) : Bool :=
  !name.toList.isEmpty && name.toList.all isAVDNameChar

/-- `validateAVDName` from `src/cli.ts`:
`avdNameRegex.test(name) && name.length > 0 && name.length < 100`. -/
def validateAVDName (name : String) : Bool :=
  avdNameRegexTest name && decide (0 < name.length) && decide (name.length < 100)

/-! ### `src/iosEmulator.ts` — iOS inventory parsing and boot -/

/-- An entry of the `simctl` JSON device listing (`IOSSimulator` in
`types.ts`); `state` is kept as a raw string, exactly as JSON delivers it. -/
structure IOSSimulator where
  udid : String
  name : String
  state : String
  deviceTypeIdentifier : String
  runtime : String
deriving DecidableEq, Repr

/-- `parseIOSSimulatorList`, applied to the already-JSON-parsed payload: the
`devices` object is a list of `(runtime key, device array)` pairs in key
order.  Each device's `runtime` field is defaulted to its containing key when
falsy (`device.runtime || runtime`). -/
def parseIOSSimulatorList (data : List (String × List IOSSimulator)) : List IOSSimulator :=
  data.flatMap (fun rtDevs =>
    rtDevs.2.map (fun device =>
      { device with runtime := if device.runtime = "" then rtDevs.1 else device.runtime }))

/-- `isSimulatorBooted`: `simulator.state === 'Booted'`. -/
def isSimulatorBooted (simulator : IOSSimulator) : Bool :=
  simulator.state == "Booted"

/-- The return type of `getIOSDeviceSubtype`. -/
inductive IOSDeviceSubtype where
  | iPhone
  | iPad
  | appleWatch
  | appleVision
  | appleTV
  | other
deriving DecidableEq, Repr

/-- `getIOSDeviceSubtype` from `src/iosEmulator.ts`: substring checks against
the lower-cased `deviceTypeIdentifier` first, then against the lower-cased
display name, in the source's order. -/
def getIOSDeviceSubtype (simulator : IOSSimulator) : IOSDeviceSubtype :=
  let identifier := jsToLower simulator.deviceTypeIdentifier
  let name := jsToLower simulator.name
  if strContains identifier "iphone" then .iPhone
  else if strContains identifier "ipad" then .iPad
  else if strContains identifier "watch" || strContains identifier "apple watch" then .appleWatch
  else if strContains identifier "vision" || strContains identifier "vision pro" then .appleVision
  else if strContains identifier "tv" || strContains identifier "appletv" then .appleTV
  else if strContains name "iphone" then .iPhone
  else if strContains name "ipad" then .iPad
  else if strContains name "watch" then .appleWatch
  else if strContains name "vision" then .appleVision
  else if strContains name "tv" then .appleTV
  else .other

/-- Maximal leading run of decimal digits, and the remainder. -/
def takeDigits : List Char → List Char × List Char
  | [] => ([], [])
  | c :: t =>
    if c.isDigit then
      let dr := takeDigits t
      (c :: dr.1, dr.2)
    else ([], c :: t)

/-- Match `\d+\.\d+(?:\.\d+)?` at the head of the input (greedy), returning
the matched text and the remainder. -/
def matchVersionNumber (cs : List Char) : Option (String × List Char) :=
  let d1r := takeDigits cs
  if d1r.1.isEmpty then none
  else
    match d1r.2 with
    | '.' :: r2 =>
      let d2r := takeDigits r2
      if d2r.1.isEmpty then none
      else
        match d2r.2 with
        | '.' :: r4 =>
          let d3r := takeDigits r4
          if d3r.1.isEmpty then
            some (String.mk (d1r.1 ++ '.' :: d2r.1), d2r.2)
          else
            some (String.mk (d1r.1 ++ '.' :: d2r.1 ++ '.' :: d3r.1), d3r.2)
        | _ => some (String.mk (d1r.1 ++ '.' :: d2r.1), d2r.2)
    | _ => none

/-- Case-insensitive match of the alternation `iOS|watchOS|tvOS|visionOS` at
the head of the input (the alternatives begin with pairwise distinct letters,
so at most one can apply). -/
def matchOSName (cs : List Char) : Option (List Char) :=
  let lower := cs.map Char.toLower
  if listPrefix "ios".toList lower then some (cs.drop 3)
  else if listPrefix "watchos".toList lower then some (cs.drop 7)
  else if listPrefix "tvos".toList lower then some (cs.drop 4)
  else if listPrefix "visionos".toList lower then some (cs.drop 8)
  else none

/-- Drop a maximal run of JS whitespace. -/
def skipWhitespace : List Char → List Char
  | [] => []
  | c :: t => if jsWhitespace c then skipWhitespace t else c :: t

/-- Match `/(?:iOS|watchOS|tvOS|visionOS)\s+(\d+\.\d+(?:\.\d+)?)/i` at one
position, returning capture group 1.  (`\s+` is followed by `\d`, and no
whitespace character is a digit, so consuming the maximal whitespace run is
equivalent to the regex's backtracking search.) -/
def matchSimpleAt (cs : List Char) : Option String :=
  match matchOSName cs with
  | none => none
  | some rest =>
    match rest with
    | c :: t =>
      if jsWhitespace c then (matchVersionNumber (skipWhitespace t)).map Prod.fst
      else none
    | [] => none

/-- Match `/(?:iOS|watchOS|tvOS|visionOS)-(\d+)-(\d+)/i` at one position,
returning `` `${m[1]}.${m[2]}` ``. -/
def matchSlugAt (cs : List Char) : Option String :=
  match matchOSName cs with
  | none => none
  | some rest =>
    match rest with
    | '-' :: r1 =>
      let d1r := takeDigits r1
      if d1r.1.isEmpty then none
      else
        match d1r.2 with
        | '-' :: r3 =>
          let d2r := takeDigits r3
          if d2r.1.isEmpty then none
          else some (String.mk d1r.1 ++ "." ++ String.mk d2r.1)
        | _ => none
    | _ => none

/-- Match `/(\d+\.\d+(?:\.\d+)?)/` at one position. -/
def matchBareVersionAt (cs : List Char) : Option String :=
  (matchVersionNumber cs).map Prod.fst

/-- Leftmost-position regex search: try the positional matcher at every
suffix, left to right. -/
def scanPositions (f : List Char → Option String) : List Char → Option String
  | [] => f []
  | c :: t =>
    match f (c :: t) with
    | some v => some v
    | none => scanPositions f t

/-- `extractIOSVersion` from `src/iosEmulator.ts`: an empty runtime string is
falsy and yields no version; otherwise the three regexes are tried in order
(human-readable `"iOS 17.0"` shape, identifier slug `"iOS-17-0"` shape, then
any bare `major.minor[.patch]` substring). -/
def extractIOSVersion (runtime : String) : Option String :=
  if runtime = "" then none
  else
    match scanPositions matchSimpleAt runtime.toList with
    | some v => some v
    | none =>
      match scanPositions matchSlugAt runtime.toList with
      | some v => some v
      | none => scanPositions matchBareVersionAt runtime.toList

/-- The subprocess results visible to `bootIOSSimulator`: the availability
probe, the `xcrun simctl boot` result and the `open -a Simulator` result. -/
structure IOSBootWorld where
  xcodeAvailable : Bool
  bootResult : CLICommandResult
  openResult : CLICommandResult

/-- `bootIOSSimulator` from `src/iosEmulator.ts` as a fallible computation:
`.error` models a thrown `Error` (with its message).  A failed boot whose
stderr contains `"already booted"` returns normally; the trailing
`open -a Simulator` call is wrapped in a silent catch and cannot alter the
outcome. -/
def bootIOSSimulator (w : IOSBootWorld) (udid : String) : Except String Unit :=
  if !validateUDID udid then .error ("Invalid UDID format: " ++ udid)
  else if !w.xcodeAvailable then .error "Xcode command line tools are not available"
  else if w.bootResult.success then .ok ()
  else if strContains w.bootResult.stderr "already booted" then .ok ()
  else .error ("Failed to boot simulator: " ++
    (if w.bootResult.stderr ≠ "" then w.bootResult.stderr
     else w.bootResult.error.getD "undefined"))

/-! ### `src/androidEmulator.ts` — the status resolver -/

/-- The subprocess results that the Android status-resolution pipeline can
observe.  Each field corresponds to one `executeCommand` call site; the
per-serial queries are functions of the device serial. -/
structure AdbWorld where
  devicesResult : CLICommandResult
  emuAvdNameResult : String → CLICommandResult
  bootAvdPropResult : String → CLICommandResult
  kernelAvdPropResult : String → CLICommandResult
  serviceListResult : String → CLICommandResult
  dumpsysResult : String → CLICommandResult
  bootCompletedResult : String → CLICommandResult
  processListResult : CLICommandResult

/-- `parseAndroidEmulatorList`: one AVD name per non-blank line, each with
initial status `'stopped'`. -/
def parseAndroidEmulatorList (output : String) : List (String × EmStatus) :=
  ((splitLines (jsTrim output)).filter (fun line => 0 < (jsTrim line).length)).map
    (fun name => (jsTrim name, EmStatus.stopped))

/-- The non-blank lines of `adb devices -l` output. -/
def deviceOutputLines (out : String) : List String :=
  (splitLines out).filter (fun line => 0 < (jsTrim line).length)

/-- The `(serial, connection state)` pairs extracted from `adb devices -l`
output: every line after the header whose first whitespace-separated field
starts with `"emulator-"`. -/
def parseDeviceSerials (out : String) : List (String × String) :=
  ((deviceOutputLines out).drop 1).filterMap (fun line =>
    match splitWhitespaceRuns (jsTrim line) with
    | serial :: status :: _ =>
      if listPrefix "emulator-".toList serial.toList then some (serial, status) else none
    | _ => none)

/-- The cleaning applied to `adb emu avd name` output: delete every `"OK"`,
normalise line endings, replace newlines by spaces, trim. -/
def cleanEmuAvdOutput (out : String) : String :=
  jsTrim (strReplace (strReplace (strReplace out "OK" "") "\r\n" "\n") "\n" " ")

/-- `getEmulatorAVDName`: three fallback queries, first non-empty cleaned
result wins (`adb emu avd name`, then the two boot-time system properties). -/
def getEmulatorAVDName (w : AdbWorld) (serial : String) : Option String :=
  let m1 := w.emuAvdNameResult serial
  if m1.success = true ∧ cleanEmuAvdOutput m1.stdout ≠ "" then
    some (cleanEmuAvdOutput m1.stdout)
  else
    let m2 := w.bootAvdPropResult serial
    if m2.success = true ∧ jsTrim m2.stdout ≠ "" then some (jsTrim m2.stdout)
    else
      let m3 := w.kernelAvdPropResult serial
      if m3.success = true ∧ jsTrim m3.stdout ≠ "" then some (jsTrim m3.stdout)
      else none

/-- `isAndroidSystemRunning`: service list non-empty, or dumpsys non-empty,
or `sys.boot_completed` reads exactly `"1"`. -/
def isAndroidSystemRunning (w : AdbWorld) (serial : String) : Bool :=
  let s1 := w.serviceListResult serial
  if s1.success = true ∧ 0 < (jsTrim s1.stdout).length then true
  else
    let s2 := w.dumpsysResult serial
    if s2.success = true ∧ 0 < (jsTrim s2.stdout).length then true
    else
      let s3 := w.bootCompletedResult serial
      s3.success && (jsTrim s3.stdout == "1")

/-- JS `Map.set` on an insertion-ordered association list: an existing key is
updated in place, a new key is appended. -/
def mapSet (m : List (String × EmStatus)) (k : String) (v : EmStatus) :
    List (String × EmStatus) :=
  if m.any (fun p => p.1 == k) then
    m.map (fun p => if p.1 == k then (k, v) else p)
  else m ++ [(k, v)]

/-- `getAllRunningEmulators`: enumerate attached `emulator-*` serials, resolve
each one's AVD name, and classify it `running` only when its connection state
is `"device"` and the deeper liveness check passes, `starting` otherwise.
Serials whose AVD name cannot be resolved are skipped.  The result is the
name-to-status map in insertion order. -/
def getAllRunningEmulators (w : AdbWorld) : List (String × EmStatus) :=
  let result := w.devicesResult
  if result.success = false ∧ (jsTrim result.stdout).length = 0 then []
  else
    (parseDeviceSerials result.stdout).foldl (fun m sd =>
      match getEmulatorAVDName w sd.1 with
      | some avdName =>
        let status :=
          if sd.2 = "device" then
            if isAndroidSystemRunning w sd.1 then EmStatus.running else EmStatus.starting
          else EmStatus.starting
        mapSet m avdName status
      | none => m) []

/-- One character of the JS class `[\s=]`. -/
def sepCharJS (c : Char) : Bool := jsWhitespace c || c == '='

/-- After at least one separator has been consumed: the (lower-cased, regex-
escaped hence literal) AVD name matches here, or one more separator is
consumed. -/
def matchNameAfterSep (needle : List Char) : List Char → Bool
  | [] => listPrefix needle []
  | c :: t => listPrefix needle (c :: t) || (sepCharJS c && matchNameAfterSep needle t)

/-- Match `/[-_]avd[\s=]+<needle>/` at one position of the lower-cased
process-table output. -/
def avdFlagAt (needle : List Char) : List Char → Bool
  | c0 :: 'a' :: 'v' :: 'd' :: s :: t =>
    (c0 == '-' || c0 == '_') && sepCharJS s && matchNameAfterSep needle t
  | _ => false

/-- Unanchored search for the `-avd <name>` token. -/
def avdProcessScan (needle : List Char) : List Char → Bool
  | [] => false
  | c :: t => avdFlagAt needle (c :: t) || avdProcessScan needle t

/-- `getAVDNameFromProcesses`: list the process table and test the lower-cased
output against `/[-_]avd[\s=]+<escaped name>/i`.  (The name is regex-escaped
in the source, so it matches literally; lower-casing both sides realises the
`i` flag.)  A failed listing yields `false`. -/
def getAVDNameFromProcesses (w : AdbWorld) (emulatorName : String) : Bool :=
  let result := w.processListResult
  result.success &&
    avdProcessScan (jsToLower emulatorName).toList (jsToLower result.stdout).toList

/-- `getAndroidEmulatorStatus`: look the requested name up in the resolved
name-to-status map; on a miss, fall back to the process-table scan, whose
positive answer is classified by the number of entries in the resolved map
(one entry: borrow its status; none: `starting`; several: `stopped`). -/
def getAndroidEmulatorStatus (w : AdbWorld) (emulatorName : String) : EmStatus :=
  let runningEmulators := getAllRunningEmulators w
  match runningEmulators.lookup emulatorName with
  | some status => status
  | none =>
    if getAVDNameFromProcesses w emulatorName then
      match runningEmulators with
      | [only] => only.2
      | [] => .starting
      | _ => .stopped
    else .stopped

/-! ### `src/emulatorProvider.ts` — the reconciling status store

State mutation is modelled by explicit state passing: every in-place update
of an `EmulatorItem` object becomes a functional record update, and the
"fired the tree-data change event" side effect becomes a returned `Bool`.
-/

/-- `'ios' | 'android'`. -/
inductive EmulatorPlatform where
  | ios
  | android
deriving DecidableEq, Repr

/-- A leaf `EmulatorItem` of the provider's tree (one emulator). -/
structure EmuRecord where
  id : String
  label : String
  platform : EmulatorPlatform
  status : EmStatus
  udid : Option String := none
  name : Option String := none
  icon : Option String := none
  subtype : Option IOSDeviceSubtype := none
  iosVersion : Option String := none
deriving DecidableEq, Repr

/-- An element of the provider's `iosEmulators` array: either a plain item
(an error or unavailability placeholder) or a subtype group with children. -/
inductive IOSItem where
  | leaf (record : EmuRecord)
  | group (id : String) (label : String) (subtype : IOSDeviceSubtype)
      (children : List EmuRecord)
deriving DecidableEq, Repr

/-- The provider's per-platform record collections. -/
structure ProviderState where
  iosEmulators : List IOSItem
  androidEmulators : List EmuRecord
deriving DecidableEq, Repr

/-- One refresh cycle's underlying probe data: the two availability flags,
the two listings (`.error` models a thrown listing failure with its message),
and the Android per-name status resolution (`getAndroidEmulatorStatus` is
total, so it is a plain function). -/
structure ProbeEnv where
  iosAvailable : Bool
  iosListing : Except String (List IOSSimulator)
  androidAvailable : Bool
  androidListing : Except String (List String)
  androidStatus : String → EmStatus

/-- The icon chosen for an iOS record. -/
def iosStatusIcon (isRunning : Bool) : String :=
  if isRunning then "$(circle-filled)" else "$(circle-outline)"

/-- The icon chosen for an Android record. -/
def androidStatusIcon (status : EmStatus) : String :=
  match status with
  | .running => "$(circle-filled)"
  | .starting => "$(sync~spin)"
  | .stopped => "$(circle-outline)"

/-- JS `Map` lookup for a map built by iterating a list and calling
`map.set(r.id, r)`: the last record with the requested id wins. -/
def jsMapGet (records : List EmuRecord) (id : String) : Option EmuRecord :=
  records.foldl (fun acc r => if r.id = id then some r else acc) none

/-- The records collected into `existingIOS`: the children of every subtype
item of the current `iosEmulators` array (plain items are skipped by the
`isSubtype && children` guard). -/
def existingIOSChildren (items : List IOSItem) : List EmuRecord :=
  items.flatMap (fun it =>
    match it with
    | .group _ _ _ cs => cs
    | .leaf _ => [])

/-- Every record of an `iosEmulators` array: placeholder leaves and subtype
children alike. -/
def flattenIOS (items : List IOSItem) : List EmuRecord :=
  items.flatMap (fun it =>
    match it with
    | .leaf r => [r]
    | .group _ _ _ cs => cs)

/-- All leaf records held by a provider state (children of iOS subtype
groups, iOS placeholder leaves, and the Android array). -/
def allRecords (s : ProviderState) : List EmuRecord :=
  flattenIOS s.iosEmulators ++ s.androidEmulators

/-- The per-simulator body of the iOS loop of `loadEmulators`: compute the
fresh status, icon, subtype and version; update the existing record in place
when one exists (flagging a change only when a field actually differs),
otherwise create a new record (always a change).  Returns the grouping
subtype together with the record, and the change flag. -/
def loadIOSStep (exist : String → Option EmuRecord) (sim : IOSSimulator) :
    (IOSDeviceSubtype × EmuRecord) × Bool :=
  let id := "ios-" ++ sim.udid
  let isRunning := isSimulatorBooted sim
  let newStatus := if isRunning then EmStatus.running else EmStatus.stopped
  let newIcon := iosStatusIcon isRunning
  let subtype := getIOSDeviceSubtype sim
  let iosVersion := extractIOSVersion sim.runtime
  match exist id with
  | some existing =>
    ((subtype,
      { existing with
          status := newStatus
          icon := some newIcon
          iosVersion := iosVersion }),
      decide (existing.status ≠ newStatus) || decide (existing.icon ≠ some newIcon) ||
        decide (existing.iosVersion ≠ iosVersion))
  | none =>
    ((subtype,
      { id := id
        label := sim.name
        platform := .ios
        status := newStatus
        udid := some sim.udid
        icon := some newIcon
        subtype := some subtype
        iosVersion := iosVersion }), true)

/-- The fixed order in which subtype category items are pushed. -/
def subtypeOrder : List IOSDeviceSubtype :=
  [.iPhone, .iPad, .appleWatch, .appleVision, .appleTV, .other]

/-- The label (and id suffix) of a subtype category item. -/
def subtypeLabel : IOSDeviceSubtype → String
  | .iPhone => "iPhone"
  | .iPad => "iPad"
  | .appleWatch => "Apple Watch"
  | .appleVision => "Apple Vision"
  | .appleTV => "Apple TV"
  | .other => "Other"

/-- Build the subtype category items from the grouped per-simulator results:
one group per subtype with at least one emulator, in `subtypeOrder`, each
holding its emulators in probe order. -/
def iosGroupItems (pairs : List (IOSDeviceSubtype × EmuRecord)) : List IOSItem :=
  subtypeOrder.filterMap (fun st =>
    let grouped := (pairs.filter (fun p => p.1 == st)).map Prod.snd
    if grouped.isEmpty then none
    else some (.group ("ios-subtype-" ++ subtypeLabel st) (subtypeLabel st) st grouped))

/-- The iOS half of `loadEmulators`: the fresh `iosItems` array and the
iOS contribution to `hasChanges`.  The unavailability and listing-failure
branches push a placeholder item and set `hasChanges` unconditionally. -/
def loadIOSItems (env : ProbeEnv) (s : ProviderState) : List IOSItem × Bool :=
  if env.iosAvailable then
    match env.iosListing with
    | .ok sims =>
      let exist := jsMapGet (existingIOSChildren s.iosEmulators)
      let results := sims.map (loadIOSStep exist)
      (iosGroupItems (results.map Prod.fst), results.any Prod.snd)
    | .error msg =>
      ([.leaf
        { id := "ios-error"
          label := msg
          platform := .ios
          status := .stopped
          icon := some "$(error)" }], true)
  else
    ([.leaf
      { id := "ios-unavailable"
        label := "Xcode not available"
        platform := .ios
        status := .stopped
        icon := some "$(warning)" }], true)

/-- The per-name body of the Android loop of `loadEmulators`. -/
def loadAndroidStep (exist : String → Option EmuRecord) (statusOf : String → EmStatus)
    (name : String) : EmuRecord × Bool :=
  let id := "android-" ++ name
  let newStatus := statusOf name
  let newIcon := androidStatusIcon newStatus
  match exist id with
  | some existing =>
    ({ existing with status := newStatus, icon := some newIcon },
      decide (existing.status ≠ newStatus) || decide (existing.icon ≠ some newIcon))
  | none =>
    ({ id := id
       label := name
       platform := .android
       status := newStatus
       name := some name
       icon := some newIcon }, true)

/-- The Android half of `loadEmulators`. -/
def loadAndroidItems (env : ProbeEnv) (s : ProviderState) : List EmuRecord × Bool :=
  if env.androidAvailable then
    match env.androidListing with
    | .ok names =>
      let exist := jsMapGet s.androidEmulators
      let results := names.map (loadAndroidStep exist env.androidStatus)
      (results.map Prod.fst, results.any Prod.snd)
    | .error msg =>
      ([{ id := "android-error"
          label := msg
          platform := .android
          status := .stopped
          icon := some "$(error)" }], true)
  else
    ([{ id := "android-unavailable"
        label := "Android Studio not available"
        platform := .android
        status := .stopped
        icon := some "$(warning)" }], true)

/-- `loadEmulators` (the reconciling full refresh): build both fresh arrays,
then replace the stored arrays and fire the tree-data change event only when
a change was flagged or either array's length differs; otherwise keep the
previous state and stay silent.  The returned `Bool` is "the event fired". -/
def loadEmulators (env : ProbeEnv) (s : ProviderState) : ProviderState × Bool :=
  let ios := loadIOSItems env s
  let android := loadAndroidItems env s
  if ios.2 || android.2 || decide (s.iosEmulators.length ≠ ios.1.length) ||
      decide (s.androidEmulators.length ≠ android.1.length) then
    ({ iosEmulators := ios.1, androidEmulators := android.1 }, true)
  else (s, false)

/-- `findIOSEmulator`: first child with the requested id across the subtype
items (plain leaves are skipped). -/
def findIOSEmulator (items : List IOSItem) (id : String) : Option EmuRecord :=
  match items with
  | [] => none
  | .leaf _ :: t => findIOSEmulator t id
  | .group _ _ _ cs :: t =>
    match cs.find? (fun r => r.id == id) with
    | some r => some r
    | none => findIOSEmulator t id

/-- Update the first record with the given id in a flat list. -/
def updateFirstRecord (f : EmuRecord → EmuRecord) (id : String) :
    List EmuRecord → List EmuRecord
  | [] => []
  | r :: t => if r.id == id then f r :: t else r :: updateFirstRecord f id t

/-- Update, in place, the record that `findIOSEmulator` would return. -/
def updateFirstIOS (f : EmuRecord → EmuRecord) (id : String) :
    List IOSItem → List IOSItem
  | [] => []
  | .leaf r :: t => .leaf r :: updateFirstIOS f id t
  | .group gid glabel gst cs :: t =>
    if cs.any (fun r => r.id == id) then
      .group gid glabel gst (updateFirstRecord f id cs) :: t
    else .group gid glabel gst cs :: updateFirstIOS f id t

/-- Overwrite a record's status and icon (the two fields every in-place
status update touches). -/
def setStatusIcon (status : EmStatus) (icon : String) (r : EmuRecord) : EmuRecord :=
  { r with status := status, icon := some icon }

/-- The per-simulator body of the iOS half of `checkStatusChanges`: if a
known record's status differs from the fresh probe, overwrite status and
icon and flag a change. -/
def checkIOSStep (acc : List IOSItem × Bool) (sim : IOSSimulator) :
    List IOSItem × Bool :=
  let emulatorId := "ios-" ++ sim.udid
  match findIOSEmulator acc.1 emulatorId with
  | some existing =>
    let isRunning := isSimulatorBooted sim
    let newStatus := if isRunning then EmStatus.running else EmStatus.stopped
    if existing.status ≠ newStatus then
      (updateFirstIOS (setStatusIcon newStatus (iosStatusIcon isRunning)) emulatorId acc.1,
        true)
    else acc
  | none => acc

/-- The iOS half of `checkStatusChanges`; unavailability and listing failure
are swallowed silently. -/
def checkIOSChanges (env : ProbeEnv) (items : List IOSItem) : List IOSItem × Bool :=
  if env.iosAvailable then
    match env.iosListing with
    | .ok sims => sims.foldl checkIOSStep (items, false)
    | .error _ => (items, false)
  else (items, false)

/-- The per-name body of the Android half of `checkStatusChanges`. -/
def checkAndroidStep (statusOf : String → EmStatus) (acc : List EmuRecord × Bool)
    (name : String) : List EmuRecord × Bool :=
  let id := "android-" ++ name
  match acc.1.find? (fun r => r.id == id) with
  | some existing =>
    let newStatus := statusOf name
    if existing.status ≠ newStatus then
      (updateFirstRecord (setStatusIcon newStatus (androidStatusIcon newStatus)) id acc.1,
        true)
    else acc
  | none => acc

/-- The Android half of `checkStatusChanges`. -/
def checkAndroidChanges (env : ProbeEnv) (records : List EmuRecord) :
    List EmuRecord × Bool :=
  if env.androidAvailable then
    match env.androidListing with
    | .ok names => names.foldl (checkAndroidStep env.androidStatus) (records, false)
    | .error _ => (records, false)
  else (records, false)

/-- `checkStatusChanges` (the lightweight periodic re-check): re-probe the
status of already-known records only, and fire the change event only when at
least one record was actually updated. -/
def checkStatusChanges (env : ProbeEnv) (s : ProviderState) : ProviderState × Bool :=
  let ios := checkIOSChanges env s.iosEmulators
  let android := checkAndroidChanges env s.androidEmulators
  ({ iosEmulators := ios.1, androidEmulators := android.1 }, ios.2 || android.2)

/-- The `EmulatorItem` argument handed to `startEmulator` by the tree view
(at runtime it is one of the stored records; the `isCategory`/`isSubtype`
flags mark the non-emulator rows). -/
structure StartTarget where
  id : String
  platform : EmulatorPlatform
  status : EmStatus
  udid : Option String := none
  name : Option String := none
  isCategory : Bool := false
  isSubtype : Bool := false
deriving DecidableEq, Repr

/-- The boot collaborators of `startEmulator`: `bootIOSSimulator` and
`bootAndroidEmulator` as fallible computations (`.error` models a thrown
`Error` with its message). -/
structure BootEnv where
  iosBoot : String → Except String Unit
  androidBoot : String → Except String Unit

/-- The optimistic phase of `startEmulator`: mark the targeted record
`starting` with a spinner icon, when it can be found. -/
def markStarting (s : ProviderState) (item : StartTarget) : ProviderState :=
  if item.platform = .ios then
    match findIOSEmulator s.iosEmulators item.id with
    | some _ =>
      { s with
          iosEmulators :=
            updateFirstIOS (setStatusIcon .starting "$(sync~spin)") item.id s.iosEmulators }
    | none => s
  else
    if s.androidEmulators.any (fun r => r.id == item.id) then
      { s with
          androidEmulators :=
            updateFirstRecord (setStatusIcon .starting "$(sync~spin)") item.id
              s.androidEmulators }
    else s

/-- The error-path rollback of `startEmulator`: reset the targeted record to
`stopped` with the outline icon, when it can be found. -/
def rollbackStopped (s : ProviderState) (item : StartTarget) : ProviderState :=
  if item.platform = .ios then
    match findIOSEmulator s.iosEmulators item.id with
    | some _ =>
      { s with
          iosEmulators :=
            updateFirstIOS (setStatusIcon .stopped "$(circle-outline)") item.id
              s.iosEmulators }
    | none => s
  else
    if s.androidEmulators.any (fun r => r.id == item.id) then
      { s with
          androidEmulators :=
            updateFirstRecord (setStatusIcon .stopped "$(circle-outline)") item.id
              s.androidEmulators }
    else s

/-- The boot subprocess call performed by `startEmulator`: only made when the
platform-specific handle is present and truthy (a missing or empty handle
skips the boot and nothing is thrown). -/
def startBootCall (env : BootEnv) (item : StartTarget) : Except String Unit :=
  if item.platform = .ios then
    match item.udid with
    | some u => if u ≠ "" then env.iosBoot u else .ok ()
    | none => .ok ()
  else
    match item.name with
    | some n => if n ≠ "" then env.androidBoot n else .ok ()
    | none => .ok ()

/-- `startEmulator`: ignore category/subtype rows and already-running items;
otherwise optimistically mark the record `starting`, run the boot, and on a
thrown boot error show a user-visible message and roll the record back to
`stopped`.  The returned `Option String` is the user-visible error message
(`none` when no error was surfaced). -/
def startEmulator (env : BootEnv) (s : ProviderState) (item : StartTarget) :
    ProviderState × Option String :=
  if item.isCategory || item.isSubtype then (s, none)
  else if item.status = .running then (s, none)
  else
    let s1 := markStarting s item
    match startBootCall env item with
    | .ok _ => (s1, none)
    | .error msg => (rollbackStopped s1 item, some ("Failed to start emulator: " ++ msg))

/-! ### Specification predicates

Vocabulary used by the theorems to state transition and probe-copy
properties of the store operations. -/

/-- The transitions a boot request is allowed to perform on a record:
leave it alone, optimistically promote `stopped` to `starting`, or roll
`starting` back to `stopped`. -/
def startTransitionOK (pre post : EmStatus) : Prop :=
  post = pre ∨ (pre = .stopped ∧ post = .starting) ∨
    (pre = .starting ∧ post = .stopped)

/-- `status` is exactly the status that this cycle's iOS probe reports for
the record id. -/
def probedIOSStatus (env : ProbeEnv) (id : String) (status : EmStatus) : Prop :=
  ∃ sims, env.iosListing = .ok sims ∧ ∃ sim ∈ sims, id = "ios-" ++ sim.udid ∧
    status = (if isSimulatorBooted sim then EmStatus.running else EmStatus.stopped)

/-- `status` is exactly the status that this cycle's Android probe reports
for the record id. -/
def probedAndroidStatus (env : ProbeEnv) (id : String) (status : EmStatus) : Prop :=
  ∃ names, env.androidListing = .ok names ∧ ∃ n ∈ names, id = "android-" ++ n ∧
    status = env.androidStatus n

/-! ### Concrete fixtures for counterexamples and witnesses -/

/-- A failed subprocess with no captured output. -/
def failedProbe : CLICommandResult :=
  { success := false, stdout := "", stderr := "", error := some "spawn ENOENT" }

/-- A successful subprocess with the given stdout. -/
def probeOut (out : String) : CLICommandResult :=
  { success := true, stdout := out, stderr := "", error := none }

/-- Two attached emulator devices whose AVD names cannot be resolved by any
of the three queries, while the process table does show the requested AVD. -/
def ambiguousWorld : AdbWorld :=
  { devicesResult :=
      probeOut "List of devices attached\nemulator-5554\tdevice\nemulator-5556\tdevice\n"
    emuAvdNameResult := fun _ => failedProbe
    bootAvdPropResult := fun _ => failedProbe
    kernelAvdPropResult := fun _ => failedProbe
    serviceListResult := fun _ => failedProbe
    dumpsysResult := fun _ => failedProbe
    bootCompletedResult := fun _ => failedProbe
    processListResult := probeOut "/sdk/emulator/qemu-system -avd Pixel_7\n" }

/-- No attached devices, but the process table shows the requested AVD. -/
def processOnlyWorld : AdbWorld :=
  { ambiguousWorld with devicesResult := probeOut "List of devices attached\n" }

/-- Every subprocess of the Android pipeline fails with empty output. -/
def deadWorld : AdbWorld :=
  { devicesResult := failedProbe
    emuAvdNameResult := fun _ => failedProbe
    bootAvdPropResult := fun _ => failedProbe
    kernelAvdPropResult := fun _ => failedProbe
    serviceListResult := fun _ => failedProbe
    dumpsysResult := fun _ => failedProbe
    bootCompletedResult := fun _ => failedProbe
    processListResult := failedProbe }

/-- The store state with no records. -/
def emptyState : ProviderState := { iosEmulators := [], androidEmulators := [] }

/-- Probe data with neither toolchain available. -/
def noToolsEnv : ProbeEnv :=
  { iosAvailable := false
    iosListing := .ok []
    androidAvailable := false
    androidListing := .ok []
    androidStatus := fun _ => .stopped }

/-- An iOS listing reporting the same udid twice with contradictory states. -/
def dupSims : List IOSSimulator :=
  [{ udid := "AAAAAAAA-BBBB-CCCC-DDDD-EEEEEEEEEEEE", name := "iPhone 15", state := "Booted",
     deviceTypeIdentifier := "x.iPhone15,2", runtime := "iOS-17-0" },
   { udid := "AAAAAAAA-BBBB-CCCC-DDDD-EEEEEEEEEEEE", name := "iPhone 15", state := "Shutdown",
     deviceTypeIdentifier := "x.iPhone15,2", runtime := "iOS-17-0" }]

/-- Probe data carrying the duplicated iOS listing. -/
def dupSimsEnv : ProbeEnv :=
  { iosAvailable := true
    iosListing := .ok dupSims
    androidAvailable := true
    androidListing := .ok []
    androidStatus := fun _ => .stopped }

/-- A healthy two-platform probe environment. -/
def goodSims : List IOSSimulator :=
  [{ udid := "AAAAAAAA-BBBB-CCCC-DDDD-EEEEEEEEEEEE", name := "iPhone 15", state := "Booted",
     deviceTypeIdentifier := "x.iPhone15,2", runtime := "iOS-17-0" },
   { udid := "BBBBBBBB-BBBB-CCCC-DDDD-EEEEEEEEEEEE", name := "iPad Air", state := "Shutdown",
     deviceTypeIdentifier := "x.iPad13,1", runtime := "iOS-17-0" }]

/-- The AVD names of the healthy environment. -/
def goodNames : List String := ["Pixel_7", "Tablet_X"]

/-- Probe data for the healthy two-platform environment. -/
def goodEnv : ProbeEnv :=
  { iosAvailable := true
    iosListing := .ok goodSims
    androidAvailable := true
    androidListing := .ok goodNames
    androidStatus := fun n => if n == "Pixel_7" then .running else .stopped }

/-- A store holding one stopped Android record. -/
def stoppedPixelState : ProviderState :=
  { iosEmulators := []
    androidEmulators :=
      [{ id := "android-Pixel_7"
         label := "Pixel_7"
         platform := .android
         status := .stopped
         name := some "Pixel_7"
         icon := some "$(circle-outline)" }] }

/-- Probe data whose Android resolver reports `running` for every name. -/
def externallyBootedEnv : ProbeEnv :=
  { iosAvailable := false
    iosListing := .ok []
    androidAvailable := true
    androidListing := .ok ["Pixel_7"]
    androidStatus := fun _ => .running }

/-- The record after the optimistic `starting` update of a boot request. -/
def pixelStartingRecord : EmuRecord :=
  { id := "android-Pixel_7"
    label := "Pixel_7"
    platform := .android
    status := .starting
    name := some "Pixel_7"
    icon := some "$(sync~spin)" }

/-- The record after a probe reported the emulator `running`. -/
def pixelRunningRecord : EmuRecord :=
  { id := "android-Pixel_7"
    label := "Pixel_7"
    platform := .android
    status := .running
    name := some "Pixel_7"
    icon := some "$(circle-filled)" }

/-- The boot request targeting the stopped Android record. -/
def pixelTarget : StartTarget :=
  { id := "android-Pixel_7", platform := .android, status := .stopped,
    name := some "Pixel_7" }

/-- A boot environment whose subprocesses succeed. -/
def okBootEnv : BootEnv :=
  { iosBoot := fun _ => .ok (), androidBoot := fun _ => .ok () }

/-- The udid used by the iOS boot fixtures. -/
def demoUdid : String := "AAAAAAAA-BBBB-CCCC-DDDD-EEEEEEEEEEEE"

/-- An iOS boot world whose `simctl boot` fails with an "already booted"
diagnostic on stderr. -/
def busyBootWorld : IOSBootWorld :=
  { xcodeAvailable := true
    bootResult :=
      { success := false
        stdout := ""
        stderr := "Unable to boot device in current state: Booted (already booted)"
        error := some "Command failed" }
    openResult := probeOut "" }

/-- The stopped iOS record targeted by the boot fixtures. -/
def iphoneRecord : EmuRecord :=
  { id := "ios-" ++ demoUdid
    label := "iPhone 15"
    platform := .ios
    status := .stopped
    udid := some demoUdid
    icon := some "$(circle-outline)" }

/-- A store holding the single iOS record inside its subtype group. -/
def iphoneState : ProviderState :=
  { iosEmulators := [.group "ios-subtype-iPhone" "iPhone" .iPhone [iphoneRecord]]
    androidEmulators := [] }

/-- The boot request targeting the iOS record. -/
def iphoneTarget : StartTarget :=
  { id := "ios-" ++ demoUdid, platform := .ios, status := .stopped,
    udid := some demoUdid }

/-- A boot environment routing iOS boots through `busyBootWorld`. -/
def busyBootEnv : BootEnv :=
  { iosBoot := fun u => bootIOSSimulator busyBootWorld u
    androidBoot := fun _ => .ok () }

/-- The device entry of the iOS round-trip listing. -/
def c3Device : IOSSimulator :=
  { udid := "AAAAAAAA-BBBB-CCCC-DDDD-EEEEEEEEEEEE"
    name := "iPhone 15"
    state := "Booted"
    deviceTypeIdentifier := "...iPhone15,2"
    runtime := "" }

/-- The iOS round-trip listing keyed by the runtime identifier. -/
def c3Listing : List (String × List IOSSimulator) := [("iOS-17-0", [c3Device])]

/-! ### Theorems -/

/-- C10: the effective deadline of `executeCommand` is computed with
JS `||`, so a caller passing `timeout = 0` (or omitting the option) gets the
30-second default deadline, for every command and argument list. -/
theorem c10_claim :
    ∀ (command : String) (args : List String) (proc : SubprocessBehavior),
      executeCommand command args { timeout := some 0 } proc =
        executeCommand command args { timeout := none } proc ∧
      effectiveTimeout { timeout := some 0 } = 30000 ∧
      effectiveTimeout { timeout := none } = 30000 :=
  fun _ _ _ => ⟨rfl, rfl, rfl⟩

/-- C5: `executeCommand` never throws — a run that exceeds its deadline
settles as the timeout failure result, a nonzero exit settles as a failure
result carrying the captured output and an error detail, and `success` is
`true` exactly when the process exits cleanly before the deadline. -/
theorem c5_claim :
    ∀ (command : String) (args : List String) (options : ExecOptions)
      (proc : SubprocessBehavior),
      ((executeCommand command args options proc).success = true ↔
        proc.duration < effectiveTimeout options ∧ proc.exitCode = 0) ∧
      (effectiveTimeout options ≤ proc.duration →
        executeCommand command args options proc =
          { success := false, stdout := "", stderr := "",
            error := some "Command timeout" }) ∧
      (proc.duration < effectiveTimeout options → proc.exitCode ≠ 0 →
        (executeCommand command args options proc).success = false ∧
        (executeCommand command args options proc).error.isSome = true ∧
        (executeCommand command args options proc).stdout = proc.stdout ∧
        (executeCommand command args options proc).stderr = proc.stderr) := by
  intro command args options proc
  unfold executeCommand
  by_cases ht : effectiveTimeout options ≤ proc.duration
  · simp [ht, Nat.not_lt.mpr ht]
  · have hlt : proc.duration < effectiveTimeout options := Nat.lt_of_not_le ht
    by_cases hz : proc.exitCode = 0
    · simp [ht, hz, hlt]
    · simp [ht, hz, hlt]

/-- C5 witness: a nonzero exit before the deadline yields a failure result,
and an over-deadline run yields the timeout result. -/
theorem c5_witness :
    (executeCommand "xcrun" ["simctl", "boot"] { timeout := some 100 }
      ⟨5, 1, "out", "err"⟩).success = false ∧
    executeCommand "adb" ["devices"] {} ⟨40000, 0, "", ""⟩ =
      { success := false, stdout := "", stderr := "",
        error := some "Command timeout" } := by
  constructor
  · exact ((c5_claim "xcrun" ["simctl", "boot"] { timeout := some 100 }
      ⟨5, 1, "out", "err"⟩).2.2 (by decide) (by decide)).1
  · exact (c5_claim "adb" ["devices"] {} ⟨40000, 0, "", ""⟩).2.1 (by decide)

/-- C3: the iOS round-trip — parsing the synthetic one-runtime listing
yields exactly one record with `runtime` defaulted to the containing key
`"iOS-17-0"`, phone category, extracted version `"17.0"`, and classified as
running because its state is `"Booted"`. -/
theorem c3_claim :
    ∃ record : IOSSimulator,
      parseIOSSimulatorList c3Listing = [record] ∧
      record.runtime = "iOS-17-0" ∧
      getIOSDeviceSubtype record = .iPhone ∧
      extractIOSVersion record.runtime = some "17.0" ∧
      isSimulatorBooted record = true := by
  refine ⟨_, rfl, ?_, ?_, ?_, ?_⟩ <;> decide

/-- C8: the version extractor tries the human-readable pattern, then the
slug pattern, then any bare numeric version, in that order, and returns
nothing when all three fail; with the three concrete evaluations of the
claim. -/
theorem c8_claim :
    extractIOSVersion "com.apple.CoreSimulator.SimRuntime.watchOS-10-2" = some "10.2" ∧
    extractIOSVersion "iOS 16.4" = some "16.4" ∧
    extractIOSVersion "garbage" = none ∧
    (∀ runtime : String, runtime ≠ "" →
      (∀ v, scanPositions matchSimpleAt runtime.toList = some v →
        extractIOSVersion runtime = some v) ∧
      (scanPositions matchSimpleAt runtime.toList = none →
        ∀ v, scanPositions matchSlugAt runtime.toList = some v →
          extractIOSVersion runtime = some v) ∧
      (scanPositions matchSimpleAt runtime.toList = none →
        scanPositions matchSlugAt runtime.toList = none →
        extractIOSVersion runtime = scanPositions matchBareVersionAt runtime.toList)) := by
  refine ⟨by decide, by decide, by decide, ?_⟩
  intro runtime hne
  refine ⟨?_, ?_, ?_⟩
  · intro v hv
    unfold extractIOSVersion
    rw [if_neg hne, hv]
  · intro h1 v hv
    unfold extractIOSVersion
    rw [if_neg hne, h1, hv]
  · intro h1 h2
    unfold extractIOSVersion
    rw [if_neg hne, h1, h2]

/-- C8 witness: the slug branch fires when the human-readable branch fails,
and the human-readable branch fires directly. -/
theorem c8_witness :
    extractIOSVersion "com.apple.CoreSimulator.SimRuntime.iOS-17-0" = some "17.0" ∧
    extractIOSVersion "visionOS 1.2" = some "1.2" := by
  constructor
  · exact (c8_claim.2.2.2 "com.apple.CoreSimulator.SimRuntime.iOS-17-0"
      (by decide)).2.1 (by decide) "17.0" (by decide)
  · exact (c8_claim.2.2.2 "visionOS 1.2" (by decide)).1 "1.2" (by decide)

/-- C9: `getAndroidEmulatorStatus` is total — when the device listing fails
with empty output and the process-table listing fails, it returns `stopped`,
making a tooling failure indistinguishable from a genuinely stopped
emulator. -/
theorem c9_claim (w : AdbWorld) (emulatorName : String)
    (hdev : w.devicesResult.success = false)
    (hout : w.devicesResult.stdout = "")
    (hproc : w.processListResult.success = false) :
    getAndroidEmulatorStatus w emulatorName = .stopped := by
  have hrun : getAllRunningEmulators w = [] := by
    unfold getAllRunningEmulators
    simp only [hdev, hout]
    rw [if_pos ⟨trivial, by decide⟩]
  have hscan : getAVDNameFromProcesses w emulatorName = false := by
    unfold getAVDNameFromProcesses
    simp only [hproc, Bool.false_and]
  unfold getAndroidEmulatorStatus
  rw [hrun, hscan]
  rfl

/-- C9 witness: the all-failing world resolves every name to `stopped`. -/
theorem c9_witness : getAndroidEmulatorStatus deadWorld "Pixel_7" = .stopped :=
  c9_claim deadWorld "Pixel_7" rfl rfl rfl

/-- C7: the AVD-name validator accepts exactly the strings of 1 to 99
characters drawn from letters, digits, underscore and hyphen. -/
theorem c7_claim (name : String) :
    validateAVDName name = true ↔
      (1 ≤ name.length ∧ name.length ≤ 99 ∧
        ∀ c ∈ name.toList, c.isAlpha = true ∨ c.isDigit = true ∨ c = '_' ∨ c = '-') := by
  have hlen : name.length = name.toList.length := rfl
  simp only [validateAVDName, avdNameRegexTest, isAVDNameChar, Bool.and_eq_true,
    List.all_eq_true, decide_eq_true_eq, Bool.not_eq_true', Bool.or_eq_true, beq_iff_eq]
  constructor
  · rintro ⟨⟨⟨hne, hall⟩, hpos⟩, hlt⟩
    exact ⟨hpos, by omega, fun c hc => by have := hall c hc; tauto⟩
  · rintro ⟨hpos, hle, hall⟩
    refine ⟨⟨⟨?_, fun c hc => by have := hall c hc; tauto⟩, hpos⟩, by omega⟩
    cases hl : name.toList with
    | nil => rw [hlen, hl] at hpos; exact absurd hpos (by decide)
    | cons c t => rfl

/-- C1 counterexample: with two attached emulator devices whose AVD-name
resolution fails (all three queries fail, so in particular the in-emulator
query fails for both) and a process-table scan that finds the requested
name, the resolver returns `starting`, not the `stopped` the claim's
ambiguity scenario demands — the code's conditions count entries of the
resolved name-to-status map, not attached devices, and unresolved devices
never enter that map. -/
theorem c1_counterexample :
    parseDeviceSerials ambiguousWorld.devicesResult.stdout =
      [("emulator-5554", "device"), ("emulator-5556", "device")] ∧
    getEmulatorAVDName ambiguousWorld "emulator-5554" = none ∧
    getEmulatorAVDName ambiguousWorld "emulator-5556" = none ∧
    getAVDNameFromProcesses ambiguousWorld "Pixel_7" = true ∧
    getAndroidEmulatorStatus ambiguousWorld "Pixel_7" = .starting ∧
    getAndroidEmulatorStatus ambiguousWorld "Pixel_7" ≠ .stopped := by
  refine ⟨by decide, by decide, by decide, by decide, by decide, by decide⟩

/-- C1 (amended): when the requested name misses the resolved name-to-status
map and the process-table scan finds it, the resolver returns the sole map
entry's status if the map has exactly one entry, `starting` if the map is
empty, and `stopped` if the map has two or more entries. -/
theorem c1_claim (w : AdbWorld) (emulatorName : String)
    (hmiss : (getAllRunningEmulators w).lookup emulatorName = none)
    (hproc : getAVDNameFromProcesses w emulatorName = true) :
    (getAllRunningEmulators w = [] →
      getAndroidEmulatorStatus w emulatorName = .starting) ∧
    (∀ entry, getAllRunningEmulators w = [entry] →
      getAndroidEmulatorStatus w emulatorName = entry.2) ∧
    (2 ≤ (getAllRunningEmulators w).length →
      getAndroidEmulatorStatus w emulatorName = .stopped) := by
  refine ⟨?_, ?_, ?_⟩
  · intro hnil
    unfold getAndroidEmulatorStatus
    simp only [hnil, hmiss, hproc]
    rw [hnil] at hmiss
    simp only [hmiss]
    rfl
  · intro entry hone
    unfold getAndroidEmulatorStatus
    rw [hone] at hmiss ⊢
    simp only [hmiss, hproc, if_true]
  · intro htwo
    unfold getAndroidEmulatorStatus
    simp only [hmiss, hproc]
    match hk : getAllRunningEmulators w with
    | [] => rw [hk, List.length_nil] at htwo; omega
    | [entry] => rw [hk, List.length_singleton] at htwo; omega
    | a :: b :: rest => rfl

/-- C1 witness: no devices attached, the process scan finds the name, the
resolver returns `starting`. -/
theorem c1_witness :
    getAndroidEmulatorStatus processOnlyWorld "Pixel_7" = .starting :=
  (c1_claim processOnlyWorld "Pixel_7" (by decide) (by decide)).1 (by decide)

/-! ### Helper lemmas on record lookup and in-place update -/

theorem find?_updateFirstRecord (f : EmuRecord → EmuRecord) (id : String)
    (hf : ∀ x, (f x).id = x.id) :
    ∀ (cs : List EmuRecord) (r : EmuRecord),
      cs.find? (fun x => x.id == id) = some r →
      (updateFirstRecord f id cs).find? (fun x => x.id == id) = some (f r) := by
  intro cs
  induction cs with
  | nil => intro r h; simp [List.find?] at h
  | cons a t ih =>
    intro r h
    by_cases ha : (a.id == id) = true
    · unfold updateFirstRecord
      rw [if_pos ha]
      simp only [List.find?, ha] at h
      injection h with h
      subst h
      have hfa : ((f a).id == id) = true := by rw [hf a]; exact ha
      simp only [List.find?, hfa]
    · unfold updateFirstRecord
      rw [if_neg ha]
      rw [Bool.not_eq_true] at ha
      simp only [List.find?, ha] at h ⊢
      exact ih r h

theorem findIOSEmulator_update (f : EmuRecord → EmuRecord) (id : String)
    (hf : ∀ x, (f x).id = x.id) :
    ∀ (items : List IOSItem) (r : EmuRecord),
      findIOSEmulator items id = some r →
      findIOSEmulator (updateFirstIOS f id items) id = some (f r) := by
  intro items
  induction items with
  | nil => intro r h; simp [findIOSEmulator] at h
  | cons it t ih =>
    intro r h
    cases it with
    | leaf r0 =>
      unfold findIOSEmulator at h
      unfold updateFirstIOS findIOSEmulator
      exact ih r h
    | group gid glabel gst cs =>
      unfold findIOSEmulator at h
      unfold updateFirstIOS
      cases hc : cs.find? (fun x => x.id == id) with
      | some r0 =>
        simp only [hc] at h
        injection h with h
        subst h
        have hp : (r0.id == id) = true := by
          have hps := List.find?_some hc
          simpa using hps
        have hany : cs.any (fun x => x.id == id) = true :=
          List.any_eq_true.mpr ⟨r0, List.mem_of_find?_eq_some hc, hp⟩
        rw [if_pos hany]
        unfold findIOSEmulator
        simp only [find?_updateFirstRecord f id hf cs r0 hc]
      | none =>
        simp only [hc] at h
        have hany : cs.any (fun x => x.id == id) = false := by
          rw [List.any_eq_false]
          intro x hx
          exact by simpa using List.find?_eq_none.mp hc x hx
        rw [if_neg (by simp [hany])]
        unfold findIOSEmulator
        rw [hc]
        exact ih r h

theorem validateUDID_ne_empty (udid : String) (h : validateUDID udid = true) :
    udid ≠ "" := by
  intro he
  rw [he] at h
  exact absurd h (by decide)

/-- C6: a failed iOS boot whose stderr contains `"already booted"` returns
normally and leaves the optimistic `starting` status in place; any other
boot failure raises, surfaces a user-visible message, and rolls the record
back to `stopped`. -/
theorem c6_claim (w : IOSBootWorld) (env : BootEnv) (s : ProviderState)
    (item : StartTarget) (udid : String) (r : EmuRecord)
    (hudid : item.udid = some udid)
    (hval : validateUDID udid = true)
    (hx : w.xcodeAvailable = true)
    (hfail : w.bootResult.success = false)
    (hplat : item.platform = .ios)
    (hcat : item.isCategory = false)
    (hsub : item.isSubtype = false)
    (hstat : item.status = .stopped)
    (hboot : env.iosBoot = fun u => bootIOSSimulator w u)
    (hfind : findIOSEmulator s.iosEmulators item.id = some r) :
    (strContains w.bootResult.stderr "already booted" = true →
      bootIOSSimulator w udid = .ok () ∧
      (startEmulator env s item).2 = none ∧
      (findIOSEmulator (startEmulator env s item).1.iosEmulators item.id).map
        (fun x => x.status) = some .starting) ∧
    (strContains w.bootResult.stderr "already booted" = false →
      (∃ msg, bootIOSSimulator w udid = .error msg) ∧
      ((startEmulator env s item).2).isSome = true ∧
      (findIOSEmulator (startEmulator env s item).1.iosEmulators item.id).map
        (fun x => x.status) = some .stopped) := by
  have hne : udid ≠ "" := validateUDID_ne_empty udid hval
  have hm : markStarting s item =
      { s with iosEmulators :=
          updateFirstIOS (setStatusIcon .starting "$(sync~spin)") item.id s.iosEmulators } := by
    unfold markStarting
    rw [if_pos hplat]
    simp only [hfind]
  have hfind1 : findIOSEmulator (markStarting s item).iosEmulators item.id =
      some (setStatusIcon .starting "$(sync~spin)" r) := by
    rw [hm]
    exact findIOSEmulator_update (setStatusIcon .starting "$(sync~spin)") item.id
      (fun _ => rfl) s.iosEmulators r hfind
  have hcall : startBootCall env item = bootIOSSimulator w udid := by
    unfold startBootCall
    rw [if_pos hplat]
    simp only [hudid]
    rw [if_pos hne, hboot]
  have hb : bootIOSSimulator w udid =
      (if strContains w.bootResult.stderr "already booted" = true then Except.ok ()
       else Except.error ("Failed to boot simulator: " ++
         (if w.bootResult.stderr ≠ "" then w.bootResult.stderr
          else w.bootResult.error.getD "undefined"))) := by
    unfold bootIOSSimulator
    rw [hval, hx, hfail]
    simp
  have hstart : startEmulator env s item =
      (match bootIOSSimulator w udid with
       | .ok _ => (markStarting s item, none)
       | .error msg => (rollbackStopped (markStarting s item) item,
           some ("Failed to start emulator: " ++ msg))) := by
    unfold startEmulator
    have h1 : (item.isCategory || item.isSubtype) = false := by rw [hcat, hsub]; rfl
    rw [h1]
    simp only [Bool.false_eq_true, if_false]
    rw [if_neg (by rw [hstat]; decide), hcall]
  constructor
  · intro halready
    have hbA : bootIOSSimulator w udid = .ok () := by rw [hb, if_pos halready]
    refine ⟨hbA, ?_, ?_⟩
    · simp only [hstart, hbA]
    · simp only [hstart, hbA]
      rw [hfind1]
      rfl
  · intro hnot
    have hbB : bootIOSSimulator w udid = .error ("Failed to boot simulator: " ++
        (if w.bootResult.stderr ≠ "" then w.bootResult.stderr
         else w.bootResult.error.getD "undefined")) := by
      rw [hb, if_neg (by simp [hnot])]
    refine ⟨⟨_, hbB⟩, ?_, ?_⟩
    · simp only [hstart, hbB, Option.isSome_some]
    · simp only [hstart, hbB]
      have hroll : rollbackStopped (markStarting s item) item =
          { markStarting s item with
              iosEmulators :=
                updateFirstIOS (setStatusIcon .stopped "$(circle-outline)") item.id
                  (markStarting s item).iosEmulators } := by
        unfold rollbackStopped
        rw [if_pos hplat]
        simp only [hfind1]
      have hroll2 : (rollbackStopped (markStarting s item) item).iosEmulators =
          updateFirstIOS (setStatusIcon .stopped "$(circle-outline)") item.id
            (markStarting s item).iosEmulators := by
        rw [hroll]
      have hfind2 := findIOSEmulator_update (setStatusIcon .stopped "$(circle-outline)")
        item.id (fun _ => rfl) (markStarting s item).iosEmulators _ hfind1
      rw [hroll2, hfind2]
      rfl

/-- C6 witness: the concrete "already booted" world — the boot call returns
normally, no error is surfaced, and the record keeps its optimistic
`starting` status. -/
theorem c6_witness :
    bootIOSSimulator busyBootWorld demoUdid = .ok () ∧
    (startEmulator busyBootEnv iphoneState iphoneTarget).2 = none ∧
    (findIOSEmulator (startEmulator busyBootEnv iphoneState iphoneTarget).1.iosEmulators
      iphoneTarget.id).map (fun x => x.status) = some .starting :=
  (c6_claim busyBootWorld busyBootEnv iphoneState iphoneTarget demoUdid iphoneRecord
    rfl (by decide) rfl rfl rfl rfl rfl rfl rfl (by decide)).1 (by decide)

/-! ### Helper lemmas on membership through updates and builds -/

theorem mem_updateFirstRecord (f : EmuRecord → EmuRecord) (id : String) :
    ∀ (cs : List EmuRecord) (x : EmuRecord), x ∈ updateFirstRecord f id cs →
      x ∈ cs ∨ ∃ y ∈ cs, y.id = id ∧ x = f y := by
  intro cs
  induction cs with
  | nil => intro x hx; simp [updateFirstRecord] at hx
  | cons a t ih =>
    intro x hx
    unfold updateFirstRecord at hx
    by_cases ha : (a.id == id) = true
    · rw [if_pos ha] at hx
      rcases List.mem_cons.mp hx with h | h
      · exact Or.inr ⟨a, List.mem_cons_self a t, by simpa using ha, h⟩
      · exact Or.inl (List.mem_cons_of_mem a h)
    · rw [if_neg ha] at hx
      rcases List.mem_cons.mp hx with h | h
      · exact Or.inl (h ▸ List.mem_cons_self a t)
      · rcases ih x h with h2 | ⟨y, hy, hid, hxy⟩
        · exact Or.inl (List.mem_cons_of_mem a h2)
        · exact Or.inr ⟨y, List.mem_cons_of_mem a hy, hid, hxy⟩

theorem flattenIOS_cons (it : IOSItem) (t : List IOSItem) :
    flattenIOS (it :: t) =
      (match it with
       | .leaf r => [r]
       | .group _ _ _ cs => cs) ++ flattenIOS t := by
  simp [flattenIOS]

theorem mem_flattenIOS_update (f : EmuRecord → EmuRecord) (id : String) :
    ∀ (items : List IOSItem) (x : EmuRecord),
      x ∈ flattenIOS (updateFirstIOS f id items) →
      x ∈ flattenIOS items ∨ ∃ y ∈ flattenIOS items, y.id = id ∧ x = f y := by
  intro items
  induction items with
  | nil => intro x hx; simp [updateFirstIOS, flattenIOS] at hx
  | cons it t ih =>
    intro x hx
    cases it with
    | leaf r0 =>
      unfold updateFirstIOS at hx
      rw [flattenIOS_cons] at hx
      rw [flattenIOS_cons]
      rcases List.mem_append.mp hx with h | h
      · exact Or.inl (List.mem_append.mpr (Or.inl h))
      · rcases ih x h with h2 | ⟨y, hy, hid, hxy⟩
        · exact Or.inl (List.mem_append.mpr (Or.inr h2))
        · exact Or.inr ⟨y, List.mem_append.mpr (Or.inr hy), hid, hxy⟩
    | group gid glabel gst cs =>
      unfold updateFirstIOS at hx
      rw [flattenIOS_cons]
      by_cases hany : cs.any (fun r => r.id == id) = true
      · rw [if_pos hany] at hx
        rw [flattenIOS_cons] at hx
        rcases List.mem_append.mp hx with h | h
        · rcases mem_updateFirstRecord f id cs x h with h2 | ⟨y, hy, hid, hxy⟩
          · exact Or.inl (List.mem_append.mpr (Or.inl h2))
          · exact Or.inr ⟨y, List.mem_append.mpr (Or.inl hy), hid, hxy⟩
        · exact Or.inl (List.mem_append.mpr (Or.inr h))
      · rw [if_neg hany] at hx
        rw [flattenIOS_cons] at hx
        rcases List.mem_append.mp hx with h | h
        · exact Or.inl (List.mem_append.mpr (Or.inl h))
        · rcases ih x h with h2 | ⟨y, hy, hid, hxy⟩
          · exact Or.inl (List.mem_append.mpr (Or.inr h2))
          · exact Or.inr ⟨y, List.mem_append.mpr (Or.inr hy), hid, hxy⟩

theorem jsMapGet_aux (id : String) :
    ∀ (rs : List EmuRecord) (acc : Option EmuRecord) (r : EmuRecord),
      rs.foldl (fun a x => if x.id = id then some x else a) acc = some r →
      acc = some r ∨ (r ∈ rs ∧ r.id = id) := by
  intro rs
  induction rs with
  | nil => intro acc r h; exact Or.inl h
  | cons a t ih =>
    intro acc r h
    rw [List.foldl_cons] at h
    rcases ih _ r h with h2 | ⟨hm, hid⟩
    · by_cases ha : a.id = id
      · rw [if_pos ha] at h2
        injection h2 with h2
        subst h2
        exact Or.inr ⟨List.mem_cons_self a t, ha⟩
      · rw [if_neg ha] at h2
        exact Or.inl h2
    · exact Or.inr ⟨List.mem_cons_of_mem a hm, hid⟩

theorem jsMapGet_some (rs : List EmuRecord) (id : String) (r : EmuRecord)
    (h : jsMapGet rs id = some r) : r ∈ rs ∧ r.id = id := by
  rcases jsMapGet_aux id rs none r h with h2 | h2
  · exact absurd h2 (by simp)
  · exact h2

theorem mem_subtypeOrder (st : IOSDeviceSubtype) : st ∈ subtypeOrder := by
  cases st <;> simp [subtypeOrder]

theorem mem_flattenIOS_groupItems (pairs : List (IOSDeviceSubtype × EmuRecord))
    (x : EmuRecord) (hx : x ∈ flattenIOS (iosGroupItems pairs)) :
    ∃ st, (st, x) ∈ pairs := by
  simp only [flattenIOS, iosGroupItems, List.mem_flatMap, List.mem_filterMap] at hx
  obtain ⟨it, ⟨st, hst, hit⟩, hxit⟩ := hx
  by_cases hg : ((pairs.filter (fun p => p.1 == st)).map Prod.snd).isEmpty = true
  · rw [if_pos hg] at hit
    exact absurd hit (by simp)
  · rw [if_neg hg] at hit
    injection hit with hit
    subst hit
    simp only [List.mem_map] at hxit
    obtain ⟨p, hp, hps⟩ := hxit
    have hpp : p ∈ pairs := (List.mem_filter.mp hp).1
    refine ⟨p.1, ?_⟩
    have hx2 : p = (p.1, x) := by
      cases p
      simp only at hps
      rw [hps]
    rw [← hx2]
    exact hpp

theorem mem_groupItems_of_pair (pairs : List (IOSDeviceSubtype × EmuRecord))
    (st : IOSDeviceSubtype) (x : EmuRecord) (h : (st, x) ∈ pairs) :
    x ∈ flattenIOS (iosGroupItems pairs) := by
  have hmem : x ∈ (pairs.filter (fun p => p.1 == st)).map Prod.snd := by
    simp only [List.mem_map]
    exact ⟨(st, x), List.mem_filter.mpr ⟨h, by simp⟩, rfl⟩
  have hne : ((pairs.filter (fun p => p.1 == st)).map Prod.snd).isEmpty = false := by
    cases hl : (pairs.filter (fun p => p.1 == st)).map Prod.snd with
    | nil => rw [hl] at hmem; simp at hmem
    | cons a t => rfl
  simp only [flattenIOS, List.mem_flatMap]
  refine ⟨.group ("ios-subtype-" ++ subtypeLabel st) (subtypeLabel st) st
    ((pairs.filter (fun p => p.1 == st)).map Prod.snd), ?_, by simpa using hmem⟩
  simp only [iosGroupItems, List.mem_filterMap]
  exact ⟨st, mem_subtypeOrder st, by rw [if_neg (by simp [hne])]⟩

theorem loadAndroidStep_spec (exist : String → Option EmuRecord)
    (hexist : ∀ id r, exist id = some r → r.id = id)
    (statusOf : String → EmStatus) (name : String) :
    (loadAndroidStep exist statusOf name).1.id = "android-" ++ name ∧
    (loadAndroidStep exist statusOf name).1.status = statusOf name ∧
    (loadAndroidStep exist statusOf name).1.icon =
      some (androidStatusIcon (statusOf name)) := by
  simp only [loadAndroidStep]
  cases he : exist ("android-" ++ name) with
  | some ex => exact ⟨hexist _ ex he, rfl, rfl⟩
  | none => exact ⟨rfl, rfl, rfl⟩

theorem loadIOSStep_spec (exist : String → Option EmuRecord)
    (hexist : ∀ id r, exist id = some r → r.id = id) (sim : IOSSimulator) :
    (loadIOSStep exist sim).1.2.id = "ios-" ++ sim.udid ∧
    (loadIOSStep exist sim).1.2.status =
      (if isSimulatorBooted sim then EmStatus.running else EmStatus.stopped) ∧
    (loadIOSStep exist sim).1.2.icon = some (iosStatusIcon (isSimulatorBooted sim)) ∧
    (loadIOSStep exist sim).1.2.iosVersion = extractIOSVersion sim.runtime ∧
    (loadIOSStep exist sim).1.1 = getIOSDeviceSubtype sim := by
  simp only [loadIOSStep]
  cases he : exist ("ios-" ++ sim.udid) with
  | some ex => exact ⟨hexist _ ex he, rfl, rfl, rfl, rfl⟩
  | none => exact ⟨rfl, rfl, rfl, rfl, rfl⟩

theorem checkIOSStep_fold_inv (env : ProbeEnv) (sims0 : List IOSSimulator)
    (hsims0 : env.iosListing = .ok sims0) (items0 : List IOSItem) :
    ∀ (sims : List IOSSimulator), (∀ a ∈ sims, a ∈ sims0) →
    ∀ (acc : List IOSItem × Bool),
      (∀ x ∈ flattenIOS acc.1, ∃ y ∈ flattenIOS items0, y.id = x.id ∧
        (x = y ∨ probedIOSStatus env x.id x.status)) →
      ∀ x ∈ flattenIOS (sims.foldl checkIOSStep acc).1,
        ∃ y ∈ flattenIOS items0, y.id = x.id ∧
          (x = y ∨ probedIOSStatus env x.id x.status) := by
  intro sims
  induction sims with
  | nil =>
    intro _ acc hinv x hx
    exact hinv x hx
  | cons sim rest ih =>
    intro hsub acc hinv
    rw [List.foldl_cons]
    apply ih (fun a ha => hsub a (List.mem_cons_of_mem _ ha))
    intro x hx
    simp only [checkIOSStep] at hx
    cases hf : findIOSEmulator acc.1 ("ios-" ++ sim.udid) with
    | none =>
      simp only [hf] at hx
      exact hinv x hx
    | some existing =>
      simp only [hf] at hx
      by_cases hd : existing.status ≠
          (if isSimulatorBooted sim then EmStatus.running else EmStatus.stopped)
      · rw [if_pos hd] at hx
        rcases mem_flattenIOS_update _ _ acc.1 x hx with h | ⟨y, hy, hid, hxy⟩
        · exact hinv x h
        · obtain ⟨z, hz, hzid, _⟩ := hinv y hy
          refine ⟨z, hz, ?_, Or.inr ?_⟩
          · rw [hzid, hxy]
            rfl
          · refine ⟨sims0, hsims0, sim, hsub sim (List.mem_cons_self _ _), ?_, ?_⟩
            · rw [hxy]
              exact hid
            · rw [hxy]
              rfl
      · rw [if_neg hd] at hx
        exact hinv x hx

theorem checkAndroidStep_fold_inv (env : ProbeEnv) (names0 : List String)
    (hnames0 : env.androidListing = .ok names0) (recs0 : List EmuRecord) :
    ∀ (names : List String), (∀ a ∈ names, a ∈ names0) →
    ∀ (acc : List EmuRecord × Bool),
      (∀ x ∈ acc.1, ∃ y ∈ recs0, y.id = x.id ∧
        (x = y ∨ probedAndroidStatus env x.id x.status)) →
      ∀ x ∈ (names.foldl (checkAndroidStep env.androidStatus) acc).1,
        ∃ y ∈ recs0, y.id = x.id ∧
          (x = y ∨ probedAndroidStatus env x.id x.status) := by
  intro names
  induction names with
  | nil =>
    intro _ acc hinv x hx
    exact hinv x hx
  | cons name rest ih =>
    intro hsub acc hinv
    rw [List.foldl_cons]
    apply ih (fun a ha => hsub a (List.mem_cons_of_mem _ ha))
    intro x hx
    simp only [checkAndroidStep] at hx
    cases hf : acc.1.find? (fun r => r.id == "android-" ++ name) with
    | none =>
      simp only [hf] at hx
      exact hinv x hx
    | some existing =>
      simp only [hf] at hx
      by_cases hd : existing.status ≠ env.androidStatus name
      · rw [if_pos hd] at hx
        rcases mem_updateFirstRecord _ _ acc.1 x hx with h | ⟨y, hy, hid, hxy⟩
        · exact hinv x h
        · obtain ⟨z, hz, hzid, _⟩ := hinv y hy
          refine ⟨z, hz, ?_, Or.inr ?_⟩
          · rw [hzid, hxy]
            rfl
          · refine ⟨names0, hnames0, name, hsub name (List.mem_cons_self _ _), ?_, ?_⟩
            · rw [hxy]
              exact hid
            · rw [hxy]
              rfl
      · rw [if_neg hd] at hx
        exact hinv x hx

theorem mem_allRecords_markStarting (s : ProviderState) (item : StartTarget)
    (x : EmuRecord) (hx : x ∈ allRecords (markStarting s item)) :
    x ∈ allRecords s ∨ ∃ y ∈ allRecords s, y.id = item.id ∧
      x = setStatusIcon .starting "$(sync~spin)" y := by
  unfold markStarting at hx
  by_cases hp : item.platform = .ios
  · rw [if_pos hp] at hx
    cases hf : findIOSEmulator s.iosEmulators item.id with
    | none =>
      simp only [hf] at hx
      exact Or.inl hx
    | some r0 =>
      simp only [hf] at hx
      unfold allRecords at hx ⊢
      rcases List.mem_append.mp hx with h | h
      · rcases mem_flattenIOS_update _ _ s.iosEmulators x h with h2 | ⟨y, hy, hid, hxy⟩
        · exact Or.inl (List.mem_append.mpr (Or.inl h2))
        · exact Or.inr ⟨y, List.mem_append.mpr (Or.inl hy), hid, hxy⟩
      · exact Or.inl (List.mem_append.mpr (Or.inr h))
  · rw [if_neg hp] at hx
    by_cases ha : s.androidEmulators.any (fun r => r.id == item.id) = true
    · rw [if_pos ha] at hx
      unfold allRecords at hx ⊢
      rcases List.mem_append.mp hx with h | h
      · exact Or.inl (List.mem_append.mpr (Or.inl h))
      · rcases mem_updateFirstRecord _ _ s.androidEmulators x h with h2 | ⟨y, hy, hid, hxy⟩
        · exact Or.inl (List.mem_append.mpr (Or.inr h2))
        · exact Or.inr ⟨y, List.mem_append.mpr (Or.inr hy), hid, hxy⟩
    · rw [if_neg ha] at hx
      exact Or.inl hx

theorem mem_allRecords_rollback (s : ProviderState) (item : StartTarget)
    (x : EmuRecord) (hx : x ∈ allRecords (rollbackStopped s item)) :
    x ∈ allRecords s ∨ ∃ y ∈ allRecords s, y.id = item.id ∧
      x = setStatusIcon .stopped "$(circle-outline)" y := by
  unfold rollbackStopped at hx
  by_cases hp : item.platform = .ios
  · rw [if_pos hp] at hx
    cases hf : findIOSEmulator s.iosEmulators item.id with
    | none =>
      simp only [hf] at hx
      exact Or.inl hx
    | some r0 =>
      simp only [hf] at hx
      unfold allRecords at hx ⊢
      rcases List.mem_append.mp hx with h | h
      · rcases mem_flattenIOS_update _ _ s.iosEmulators x h with h2 | ⟨y, hy, hid, hxy⟩
        · exact Or.inl (List.mem_append.mpr (Or.inl h2))
        · exact Or.inr ⟨y, List.mem_append.mpr (Or.inl hy), hid, hxy⟩
      · exact Or.inl (List.mem_append.mpr (Or.inr h))
  · rw [if_neg hp] at hx
    by_cases ha : s.androidEmulators.any (fun r => r.id == item.id) = true
    · rw [if_pos ha] at hx
      unfold allRecords at hx ⊢
      rcases List.mem_append.mp hx with h | h
      · exact Or.inl (List.mem_append.mpr (Or.inl h))
      · rcases mem_updateFirstRecord _ _ s.androidEmulators x h with h2 | ⟨y, hy, hid, hxy⟩
        · exact Or.inl (List.mem_append.mpr (Or.inr h2))
        · exact Or.inr ⟨y, List.mem_append.mpr (Or.inr hy), hid, hxy⟩
    · rw [if_neg ha] at hx
      exact Or.inl hx

/-- C4 counterexample: the lightweight status re-check moves a record
directly from `stopped` to `running` when the probe reports an emulator that
was booted outside the extension — a transition the claim forbids. -/
theorem c4_counterexample :
    (∃ r ∈ allRecords stoppedPixelState,
      r.id = "android-Pixel_7" ∧ r.status = .stopped) ∧
    (∃ r ∈ allRecords (checkStatusChanges externallyBootedEnv stoppedPixelState).1,
      r.id = "android-Pixel_7" ∧ r.status = .running) := by
  decide

/-- C4 (amended): a boot request performs only the optimistic
`stopped → starting` promotion and the rollback `starting → stopped`
(provided the clicked item reflects its record's current status), while the
refresh and the status re-check copy the freshly probed status into records
verbatim — which can realise any transition, including `stopped → running`. -/
theorem c4_claim :
    (∀ (env : BootEnv) (s : ProviderState) (item : StartTarget),
      (∀ r ∈ allRecords s, r.id = item.id → r.status = item.status) →
      ∀ x ∈ allRecords (startEmulator env s item).1, ∃ y ∈ allRecords s,
        y.id = x.id ∧ startTransitionOK y.status x.status) ∧
    (∀ (env : ProbeEnv) (s : ProviderState),
      ∀ x ∈ allRecords (checkStatusChanges env s).1, ∃ y ∈ allRecords s,
        y.id = x.id ∧ (x = y ∨ probedIOSStatus env x.id x.status ∨
          probedAndroidStatus env x.id x.status)) ∧
    (∀ (env : ProbeEnv) (s : ProviderState) (sims : List IOSSimulator)
        (names : List String),
      env.iosAvailable = true → env.androidAvailable = true →
      env.iosListing = .ok sims → env.androidListing = .ok names →
      ∀ x ∈ allRecords (loadEmulators env s).1,
        (∃ y ∈ allRecords s, x = y) ∨ probedIOSStatus env x.id x.status ∨
          probedAndroidStatus env x.id x.status) := by
  refine ⟨?_, ?_, ?_⟩
  · -- startEmulator
    intro env s item hco x hx
    unfold startEmulator at hx
    by_cases hcat : (item.isCategory || item.isSubtype) = true
    · rw [if_pos hcat] at hx
      exact ⟨x, hx, rfl, Or.inl rfl⟩
    · rw [if_neg hcat] at hx
      by_cases hrun : item.status = .running
      · rw [if_pos hrun] at hx
        exact ⟨x, hx, rfl, Or.inl rfl⟩
      · rw [if_neg hrun] at hx
        cases hb : startBootCall env item with
        | ok u =>
          simp only [hb] at hx
          rcases mem_allRecords_markStarting s item x hx with h | ⟨y, hy, hid, hxy⟩
          · exact ⟨x, h, rfl, Or.inl rfl⟩
          · have hys := hco y hy hid
            refine ⟨y, hy, by rw [hxy]; rfl, ?_⟩
            rw [hxy]
            cases hstat : y.status with
            | running => rw [hstat] at hys; exact absurd hys.symm hrun
            | starting => exact Or.inl rfl
            | stopped => exact Or.inr (Or.inl ⟨rfl, rfl⟩)
        | error msg =>
          simp only [hb] at hx
          rcases mem_allRecords_rollback (markStarting s item) item x hx with
            h | ⟨y1, hy1, hid1, hxy1⟩
          · rcases mem_allRecords_markStarting s item x h with h2 | ⟨y, hy, hid, hxy⟩
            · exact ⟨x, h2, rfl, Or.inl rfl⟩
            · have hys := hco y hy hid
              refine ⟨y, hy, by rw [hxy]; rfl, ?_⟩
              rw [hxy]
              cases hstat : y.status with
              | running => rw [hstat] at hys; exact absurd hys.symm hrun
              | starting => exact Or.inl rfl
              | stopped => exact Or.inr (Or.inl ⟨rfl, rfl⟩)
          · rcases mem_allRecords_markStarting s item y1 hy1 with h2 | ⟨y, hy, hid, hxy⟩
            · have hys := hco y1 h2 hid1
              refine ⟨y1, h2, by rw [hxy1]; rfl, ?_⟩
              rw [hxy1]
              cases hstat : y1.status with
              | running => rw [hstat] at hys; exact absurd hys.symm hrun
              | starting => exact Or.inr (Or.inr ⟨rfl, rfl⟩)
              | stopped => exact Or.inl rfl
            · have hys := hco y hy hid
              refine ⟨y, hy, by rw [hxy1, hxy]; rfl, ?_⟩
              rw [hxy1, hxy]
              cases hstat : y.status with
              | running => rw [hstat] at hys; exact absurd hys.symm hrun
              | starting => exact Or.inr (Or.inr ⟨rfl, rfl⟩)
              | stopped => exact Or.inl rfl
  · -- checkStatusChanges
    intro env s x hx
    simp only [checkStatusChanges, allRecords] at hx
    rcases List.mem_append.mp hx with h | h
    · have hios : ∀ z ∈ flattenIOS (checkIOSChanges env s.iosEmulators).1,
          ∃ y ∈ flattenIOS s.iosEmulators, y.id = z.id ∧
            (z = y ∨ probedIOSStatus env z.id z.status) := by
        unfold checkIOSChanges
        by_cases hav : env.iosAvailable = true
        · rw [if_pos hav]
          cases hl : env.iosListing with
          | ok sims =>
            intro z hz
            exact checkIOSStep_fold_inv env sims hl s.iosEmulators sims
              (fun a ha => ha) (s.iosEmulators, false)
              (fun z hz => ⟨z, hz, rfl, Or.inl rfl⟩) z hz
          | error msg =>
            intro z hz
            exact ⟨z, hz, rfl, Or.inl rfl⟩
        · rw [if_neg hav]
          intro z hz
          exact ⟨z, hz, rfl, Or.inl rfl⟩
      obtain ⟨y, hy, hid, hrel⟩ := hios x h
      refine ⟨y, ?_, hid, ?_⟩
      · unfold allRecords
        exact List.mem_append.mpr (Or.inl hy)
      · rcases hrel with h2 | h2
        · exact Or.inl h2
        · exact Or.inr (Or.inl h2)
    · have hand : ∀ z ∈ (checkAndroidChanges env s.androidEmulators).1,
          ∃ y ∈ s.androidEmulators, y.id = z.id ∧
            (z = y ∨ probedAndroidStatus env z.id z.status) := by
        unfold checkAndroidChanges
        by_cases hav : env.androidAvailable = true
        · rw [if_pos hav]
          cases hl : env.androidListing with
          | ok names =>
            intro z hz
            exact checkAndroidStep_fold_inv env names hl s.androidEmulators names
              (fun a ha => ha) (s.androidEmulators, false)
              (fun z hz => ⟨z, hz, rfl, Or.inl rfl⟩) z hz
          | error msg =>
            intro z hz
            exact ⟨z, hz, rfl, Or.inl rfl⟩
        · rw [if_neg hav]
          intro z hz
          exact ⟨z, hz, rfl, Or.inl rfl⟩
      obtain ⟨y, hy, hid, hrel⟩ := hand x h
      refine ⟨y, ?_, hid, ?_⟩
      · unfold allRecords
        exact List.mem_append.mpr (Or.inr hy)
      · rcases hrel with h2 | h2
        · exact Or.inl h2
        · exact Or.inr (Or.inr h2)
  · -- loadEmulators
    intro env s sims names hiav haav hil hal x hx
    simp only [loadEmulators] at hx
    by_cases hc : ((loadIOSItems env s).2 || (loadAndroidItems env s).2 ||
        decide (s.iosEmulators.length ≠ (loadIOSItems env s).1.length) ||
        decide (s.androidEmulators.length ≠ (loadAndroidItems env s).1.length)) = true
    · rw [if_pos hc] at hx
      simp only [allRecords] at hx
      have hexist : ∀ (rs : List EmuRecord) (id : String) (r : EmuRecord),
          jsMapGet rs id = some r → r.id = id :=
        fun rs id r hj => (jsMapGet_some rs id r hj).2
      rcases List.mem_append.mp hx with h | h
      · have hios1 : (loadIOSItems env s).1 =
            iosGroupItems ((sims.map
              (loadIOSStep (jsMapGet (existingIOSChildren s.iosEmulators)))).map
                Prod.fst) := by
          simp only [loadIOSItems, hiav, if_true, hil]
        rw [hios1] at h
        obtain ⟨st, hst⟩ := mem_flattenIOS_groupItems _ x h
        simp only [List.mem_map] at hst
        obtain ⟨pr, ⟨sim, hsim, hsim2⟩, hpr2⟩ := hst
        have hx2 : x = (loadIOSStep (jsMapGet (existingIOSChildren s.iosEmulators))
            sim).1.2 := by
          rw [hsim2, hpr2]
        obtain ⟨hxid, hxstatus, _⟩ :=
          loadIOSStep_spec (jsMapGet (existingIOSChildren s.iosEmulators))
            (hexist _) sim
        refine Or.inr (Or.inl ⟨sims, hil, sim, hsim, ?_, ?_⟩)
        · rw [hx2]
          exact hxid
        · rw [hx2]
          exact hxstatus
      · have hand1 : (loadAndroidItems env s).1 =
            (names.map (loadAndroidStep (jsMapGet s.androidEmulators)
              env.androidStatus)).map Prod.fst := by
          simp only [loadAndroidItems, haav, if_true, hal]
        rw [hand1] at h
        simp only [List.mem_map] at h
        obtain ⟨pr, ⟨n, hn, hn2⟩, hpr2⟩ := h
        have hx2 : x = (loadAndroidStep (jsMapGet s.androidEmulators)
            env.androidStatus n).1 := by
          rw [hn2, hpr2]
        obtain ⟨hxid, hxstatus, _⟩ :=
          loadAndroidStep_spec (jsMapGet s.androidEmulators) (hexist _)
            env.androidStatus n
        refine Or.inr (Or.inr ⟨names, hal, n, hn, ?_, ?_⟩)
        · rw [hx2]
          exact hxid
        · rw [hx2]
          exact hxstatus
    · rw [if_neg hc] at hx
      exact Or.inl ⟨x, hx, rfl⟩

/-- C4 witness: a boot request on the stopped record performs the allowed
`stopped → starting` promotion; the re-check and the full refresh install
exactly the probed `running` status. -/
theorem c4_witness :
    (∃ y ∈ allRecords stoppedPixelState, y.id = pixelStartingRecord.id ∧
      startTransitionOK y.status pixelStartingRecord.status) ∧
    (∃ y ∈ allRecords stoppedPixelState, y.id = pixelRunningRecord.id ∧
      (pixelRunningRecord = y ∨
        probedIOSStatus externallyBootedEnv pixelRunningRecord.id
          pixelRunningRecord.status ∨
        probedAndroidStatus externallyBootedEnv pixelRunningRecord.id
          pixelRunningRecord.status)) ∧
    ((∃ y ∈ allRecords emptyState, pixelRunningRecord = y) ∨
      probedIOSStatus goodEnv pixelRunningRecord.id pixelRunningRecord.status ∨
      probedAndroidStatus goodEnv pixelRunningRecord.id
        pixelRunningRecord.status) := by
  refine ⟨?_, ?_, ?_⟩
  · exact c4_claim.1 okBootEnv stoppedPixelState pixelTarget (by decide)
      pixelStartingRecord (by decide)
  · exact c4_claim.2.1 externallyBootedEnv stoppedPixelState
      pixelRunningRecord (by decide)
  · exact c4_claim.2.2 goodEnv emptyState goodSims goodNames rfl rfl rfl rfl
      pixelRunningRecord (by decide)

/-! ### Helper lemmas for the refresh fixpoint -/

theorem string_append_left_cancel (a b c : String) (h : a ++ b = a ++ c) : b = c := by
  cases a with
  | mk la =>
    cases b with
    | mk lb =>
      cases c with
      | mk lc =>
        have h2 : la ++ lb = la ++ lc := congrArg String.data h
        exact congrArg String.mk (List.append_cancel_left h2)

theorem jsMapGet_keep (id : String) (r : EmuRecord) :
    ∀ (rs : List EmuRecord), (∀ x ∈ rs, x.id = id → x = r) →
      rs.foldl (fun a x => if x.id = id then some x else a) (some r) = some r := by
  intro rs
  induction rs with
  | nil => intro _; rfl
  | cons a t ih =>
    intro hu
    rw [List.foldl_cons]
    by_cases ha : a.id = id
    · rw [if_pos ha, hu a (List.mem_cons_self a t) ha]
      exact ih (fun x hx => hu x (List.mem_cons_of_mem a hx))
    · rw [if_neg ha]
      exact ih (fun x hx => hu x (List.mem_cons_of_mem a hx))

theorem jsMapGet_unique : ∀ (rs : List EmuRecord) (id : String) (r : EmuRecord),
    (∀ x ∈ rs, x.id = id → x = r) → r ∈ rs → r.id = id →
    jsMapGet rs id = some r := by
  intro rs
  induction rs with
  | nil =>
    intro id r _ hm _
    simp at hm
  | cons a t ih =>
    intro id r hu hm hid
    unfold jsMapGet
    rw [List.foldl_cons]
    rcases List.mem_cons.mp hm with h | h
    · subst h
      rw [if_pos hid]
      exact jsMapGet_keep id r t (fun x hx => hu x (List.mem_cons_of_mem _ hx))
    · by_cases ha : a.id = id
      · have haa : a = r := hu a (List.mem_cons_self a t) ha
        subst haa
        rw [if_pos ha]
        exact jsMapGet_keep id a t (fun x hx => hu x (List.mem_cons_of_mem _ hx))
      · rw [if_neg ha]
        exact ih id r (fun x hx => hu x (List.mem_cons_of_mem _ hx)) h hid

theorem emuRecord_update3_self (r : EmuRecord) (st : EmStatus) (ic v : Option String)
    (h1 : r.status = st) (h2 : r.icon = ic) (h3 : r.iosVersion = v) :
    ({ r with status := st, icon := ic, iosVersion := v } : EmuRecord) = r := by
  cases r
  simp_all

theorem emuRecord_update2_self (r : EmuRecord) (st : EmStatus) (ic : Option String)
    (h1 : r.status = st) (h2 : r.icon = ic) :
    ({ r with status := st, icon := ic } : EmuRecord) = r := by
  cases r
  simp_all

theorem loadAndroidStep_of_exist (exist : String → Option EmuRecord)
    (statusOf : String → EmStatus) (n : String) (r : EmuRecord)
    (he : exist ("android-" ++ n) = some r)
    (hst : r.status = statusOf n)
    (hic : r.icon = some (androidStatusIcon (statusOf n))) :
    loadAndroidStep exist statusOf n = (r, false) := by
  simp only [loadAndroidStep, he]
  rw [emuRecord_update2_self _ _ _ hst hic, hst, hic]
  simp

theorem loadAndroidStep_fix (statusOf : String → EmStatus) (names : List String)
    (exist : String → Option EmuRecord)
    (hexist : ∀ id r, exist id = some r → r.id = id)
    (n : String) (hn : n ∈ names) :
    loadAndroidStep
      (jsMapGet (names.map (fun m => (loadAndroidStep exist statusOf m).1)))
      statusOf n = ((loadAndroidStep exist statusOf n).1, false) := by
  have hspec := fun m => loadAndroidStep_spec exist hexist statusOf m
  have hj : jsMapGet (names.map (fun m => (loadAndroidStep exist statusOf m).1))
      ("android-" ++ n) = some (loadAndroidStep exist statusOf n).1 := by
    apply jsMapGet_unique
    · intro x hx hxid
      simp only [List.mem_map] at hx
      obtain ⟨m, hm, hm2⟩ := hx
      have heq : "android-" ++ m = "android-" ++ n := by
        rw [← hxid, ← hm2]
        exact ((hspec m).1).symm
      have hmn : m = n := string_append_left_cancel _ _ _ heq
      rw [← hm2, hmn]
    · exact List.mem_map.mpr ⟨n, hn, rfl⟩
    · exact (hspec n).1
  exact loadAndroidStep_of_exist _ statusOf n _ hj (hspec n).2.1 (hspec n).2.2

theorem loadAndroidItems_fix (env : ProbeEnv) (s t : ProviderState)
    (names : List String) (hav : env.androidAvailable = true)
    (hok : env.androidListing = .ok names)
    (ht : t.androidEmulators = (loadAndroidItems env s).1) :
    loadAndroidItems env t = ((loadAndroidItems env s).1, false) := by
  have hexist : ∀ id r, jsMapGet s.androidEmulators id = some r → r.id = id :=
    fun id r h => (jsMapGet_some _ id r h).2
  have h1 : (loadAndroidItems env s).1 =
      names.map (fun m => (loadAndroidStep (jsMapGet s.androidEmulators)
        env.androidStatus m).1) := by
    simp only [loadAndroidItems, hav, if_true, hok]
    rw [List.map_map]
    rfl
  have hfix : ∀ n ∈ names,
      loadAndroidStep (jsMapGet t.androidEmulators) env.androidStatus n =
        ((loadAndroidStep (jsMapGet s.androidEmulators) env.androidStatus n).1,
          false) := by
    intro n hn
    rw [ht, h1]
    exact loadAndroidStep_fix env.androidStatus names (jsMapGet s.androidEmulators)
      hexist n hn
  have hmap : names.map (loadAndroidStep (jsMapGet t.androidEmulators)
        env.androidStatus) =
      names.map (fun n => ((loadAndroidStep (jsMapGet s.androidEmulators)
        env.androidStatus n).1, false)) :=
    List.map_congr_left hfix
  have hcalc : loadAndroidItems env t =
      ((names.map (fun n => ((loadAndroidStep (jsMapGet s.androidEmulators)
          env.androidStatus n).1, false))).map Prod.fst,
        (names.map (fun n => ((loadAndroidStep (jsMapGet s.androidEmulators)
          env.androidStatus n).1, false))).any Prod.snd) := by
    simp only [loadAndroidItems, hav, if_true, hok, hmap]
  rw [hcalc]
  refine Prod.ext ?_ ?_
  · dsimp only
    rw [List.map_map]
    exact h1.symm
  · simp

theorem existingIOSChildren_eq_flatten : ∀ (items : List IOSItem),
    (∀ it ∈ items, ∀ r, it ≠ .leaf r) →
    existingIOSChildren items = flattenIOS items := by
  intro items
  induction items with
  | nil => intro _; rfl
  | cons it t ih =>
    intro h
    cases it with
    | leaf r => exact absurd rfl (h _ (List.mem_cons_self _ _) r)
    | group g l st cs =>
      simp only [existingIOSChildren, flattenIOS, List.flatMap_cons] at ih ⊢
      rw [ih (fun x hx r => h x (List.mem_cons_of_mem _ hx) r)]

theorem iosGroupItems_no_leaf (pairs : List (IOSDeviceSubtype × EmuRecord)) :
    ∀ it ∈ iosGroupItems pairs, ∀ r, it ≠ .leaf r := by
  intro it hit r
  simp only [iosGroupItems, List.mem_filterMap] at hit
  obtain ⟨st, hst, hsome⟩ := hit
  by_cases hg : ((pairs.filter (fun p => p.1 == st)).map Prod.snd).isEmpty = true
  · rw [if_pos hg] at hsome
    exact absurd hsome (by simp)
  · rw [if_neg hg] at hsome
    injection hsome with hsome
    rw [← hsome]
    simp

theorem loadIOSStep_of_exist (exist : String → Option EmuRecord)
    (sim : IOSSimulator) (r : EmuRecord)
    (he : exist ("ios-" ++ sim.udid) = some r)
    (hst : r.status =
      (if isSimulatorBooted sim then EmStatus.running else EmStatus.stopped))
    (hic : r.icon = some (iosStatusIcon (isSimulatorBooted sim)))
    (hv : r.iosVersion = extractIOSVersion sim.runtime) :
    loadIOSStep exist sim = ((getIOSDeviceSubtype sim, r), false) := by
  simp only [loadIOSStep, he]
  rw [emuRecord_update3_self _ _ _ _ hst hic hv, hst, hic, hv]
  simp

theorem loadIOSStep_fix (sims : List IOSSimulator)
    (hnd : (sims.map (fun sim => sim.udid)).Nodup)
    (exist : String → Option EmuRecord)
    (hexist : ∀ id r, exist id = some r → r.id = id)
    (sim : IOSSimulator) (hs : sim ∈ sims) :
    loadIOSStep (jsMapGet (existingIOSChildren (iosGroupItems
      ((sims.map (loadIOSStep exist)).map Prod.fst)))) sim =
      ((loadIOSStep exist sim).1, false) := by
  have hspec := fun m => loadIOSStep_spec exist hexist m
  have hinj : ∀ a ∈ sims, ∀ b ∈ sims, a.udid = b.udid → a = b :=
    List.inj_on_of_nodup_map hnd
  have hflat : existingIOSChildren (iosGroupItems
      ((sims.map (loadIOSStep exist)).map Prod.fst)) =
      flattenIOS (iosGroupItems ((sims.map (loadIOSStep exist)).map Prod.fst)) :=
    existingIOSChildren_eq_flatten _ (iosGroupItems_no_leaf _)
  have hj : jsMapGet (existingIOSChildren (iosGroupItems
      ((sims.map (loadIOSStep exist)).map Prod.fst))) ("ios-" ++ sim.udid) =
      some (loadIOSStep exist sim).1.2 := by
    rw [hflat]
    apply jsMapGet_unique
    · intro x hx hxid
      obtain ⟨st, hst⟩ := mem_flattenIOS_groupItems _ x hx
      simp only [List.mem_map] at hst
      obtain ⟨pr, ⟨m, hm, hm2⟩, hpr2⟩ := hst
      have hxm : x = (loadIOSStep exist m).1.2 := by
        rw [hm2, hpr2]
      have heq : "ios-" ++ m.udid = "ios-" ++ sim.udid := by
        rw [← hxid, hxm]
        exact ((hspec m).1).symm
      have hmn : m = sim := hinj m hm sim hs (string_append_left_cancel _ _ _ heq)
      rw [hxm, hmn]
    · rw [← Prod.mk.eta (p := (loadIOSStep exist sim).1)]
      apply mem_groupItems_of_pair
      rw [Prod.mk.eta]
      exact List.mem_map.mpr ⟨loadIOSStep exist sim,
        List.mem_map.mpr ⟨sim, hs, rfl⟩, rfl⟩
    · exact (hspec sim).1
  obtain ⟨hid, hst, hic, hv, hsub⟩ := hspec sim
  rw [loadIOSStep_of_exist _ sim _ hj hst hic hv]
  have hpair : (getIOSDeviceSubtype sim, (loadIOSStep exist sim).1.2) =
      (loadIOSStep exist sim).1 := by
    rw [← hsub]
  rw [hpair]

theorem loadIOSItems_fix (env : ProbeEnv) (s t : ProviderState)
    (sims : List IOSSimulator) (hav : env.iosAvailable = true)
    (hok : env.iosListing = .ok sims)
    (hnd : (sims.map (fun sim => sim.udid)).Nodup)
    (ht : t.iosEmulators = (loadIOSItems env s).1) :
    loadIOSItems env t = ((loadIOSItems env s).1, false) := by
  have hexist : ∀ id r,
      jsMapGet (existingIOSChildren s.iosEmulators) id = some r → r.id = id :=
    fun id r h => (jsMapGet_some _ id r h).2
  have h1 : (loadIOSItems env s).1 = iosGroupItems
      ((sims.map (loadIOSStep (jsMapGet
        (existingIOSChildren s.iosEmulators)))).map Prod.fst) := by
    simp only [loadIOSItems, hav, if_true, hok]
  have hfix : ∀ m ∈ sims,
      loadIOSStep (jsMapGet (existingIOSChildren t.iosEmulators)) m =
        ((loadIOSStep (jsMapGet (existingIOSChildren s.iosEmulators)) m).1,
          false) := by
    intro m hm
    rw [ht, h1]
    exact loadIOSStep_fix sims hnd _ hexist m hm
  have hmap : sims.map (loadIOSStep (jsMapGet
        (existingIOSChildren t.iosEmulators))) =
      sims.map (fun m => ((loadIOSStep (jsMapGet
        (existingIOSChildren s.iosEmulators)) m).1, false)) :=
    List.map_congr_left hfix
  have hcalc : loadIOSItems env t =
      (iosGroupItems ((sims.map (fun m => ((loadIOSStep (jsMapGet
          (existingIOSChildren s.iosEmulators)) m).1, false))).map Prod.fst),
        (sims.map (fun m => ((loadIOSStep (jsMapGet
          (existingIOSChildren s.iosEmulators)) m).1, false))).any Prod.snd) := by
    simp only [loadIOSItems, hav, if_true, hok, hmap]
  rw [hcalc]
  refine Prod.ext ?_ ?_
  · dsimp only
    rw [List.map_map]
    rw [h1, List.map_map]
    rfl
  · simp

/-- C2 counterexample: the second refresh over identical probe data does
fire the change signal — once when a toolchain is unavailable (the
placeholder branch always flags a change), and once when the iOS listing
repeats a udid with contradictory states. -/
theorem c2_counterexample :
    (loadEmulators noToolsEnv (loadEmulators noToolsEnv emptyState).1).2 = true ∧
    (loadEmulators dupSimsEnv (loadEmulators dupSimsEnv emptyState).1).2 = true := by
  constructor <;> decide

/-- C2 (amended): when both toolchains are available, both listings succeed,
and the iOS listing carries no duplicate udid, the reconciling refresh is
idempotent — a second run over the same probe data returns the stored state
unchanged (records and all) and does not fire the view-changed signal. -/
theorem c2_claim (env : ProbeEnv) (s : ProviderState)
    (sims : List IOSSimulator) (names : List String)
    (hiav : env.iosAvailable = true) (haav : env.androidAvailable = true)
    (hil : env.iosListing = .ok sims) (hal : env.androidListing = .ok names)
    (hnd : (sims.map (fun sim => sim.udid)).Nodup) :
    loadEmulators env (loadEmulators env s).1 = ((loadEmulators env s).1, false) := by
  by_cases hc : ((loadIOSItems env s).2 || (loadAndroidItems env s).2 ||
      decide (s.iosEmulators.length ≠ (loadIOSItems env s).1.length) ||
      decide (s.androidEmulators.length ≠ (loadAndroidItems env s).1.length)) = true
  · have hs1 : (loadEmulators env s).1 =
        ⟨(loadIOSItems env s).1, (loadAndroidItems env s).1⟩ := by
      simp only [loadEmulators]
      rw [if_pos hc]
    have hios := loadIOSItems_fix env s
      ⟨(loadIOSItems env s).1, (loadAndroidItems env s).1⟩ sims hiav hil hnd rfl
    have hand := loadAndroidItems_fix env s
      ⟨(loadIOSItems env s).1, (loadAndroidItems env s).1⟩ names haav hal rfl
    rw [hs1]
    simp [loadEmulators, hios, hand]
  · have hres : loadEmulators env s = (s, false) := by
      simp only [loadEmulators]
      rw [if_neg hc]
    rw [hres]
    exact hres

/-- C2 witness: the healthy two-platform environment — the second refresh
keeps the state and stays silent. -/
theorem c2_witness :
    loadEmulators goodEnv (loadEmulators goodEnv emptyState).1 =
      ((loadEmulators goodEnv emptyState).1, false) :=
  c2_claim goodEnv emptyState goodSims goodNames rfl rfl rfl rfl (by decide)

end Emma
